import Mathlib

/-!
Verification of the planning-and-execution engine of `wys-novels/agent-api`.

The development shallowly embeds the TypeScript sources:
* `src/agent/http-executor.service.ts` (plan runner, step executor, parameter
  parsing, HTTP request building),
* `src/api-registry/swagger.service.ts` (endpoint schema lookup and schema
  reference resolution),
* `src/agent/api-planner.service.ts` (stage-3 endpoint sequencing),
* `src/agent/constants/http.constants.ts` (`HTTP_STATUS`),
* the `api-planner.interface` data model (`ApiCallPlan`, `ExecutionResult`,
  `ExecutionErrorType`, `ParameterGenerationResult`).

Dynamically-typed JavaScript values are modelled by the inductive `Json`;
property access on a missing key (JavaScript `undefined`) is `Option.none`,
and JavaScript truthiness is the function `jsTruthy`.  The injected services
(`OpenAIService`, `HttpService`, the Swagger document fetch) are modelled as
oracle functions supplied as parameters, exactly where the NestJS constructor
injects them.  JSON numbers are modelled as integers (no claim involves
fractional numbers), and property access on `null` (a crash in JavaScript)
is modelled as `undefined`; both restrictions are outside every claim.
-/

/-- A JSON / JavaScript runtime value (`any` in the TypeScript sources). -/
inductive Json where
  | null : Json
  | bool : Bool → Json
  | num : Int → Json
  | str : String → Json
  | arr : List Json → Json
  | obj : List (String × Json) → Json
deriving Repr

/-- JavaScript truthiness of a value. -/
def jsTruthy : Json → Bool
  | .null => false
  | .bool b => b
  | .num n => n != 0
  | .str s => s != ""
  | .arr _ => true
  | .obj _ => true

/-- JavaScript truthiness of a possibly-`undefined` value. -/
def jsTruthyOpt : Option Json → Bool
  | none => false
  | some j => jsTruthy j

/-- Property access `v[k]`: `undefined` (`none`) unless `v` is an object with
the key; a duplicated key keeps the last binding, as JavaScript objects do. -/
def jsField : Json → String → Option Json
  | .obj kvs, k => kvs.foldl (fun acc kv => if kv.1 = k then some kv.2 else acc) none
  | _, _ => none

/-- Property access on a possibly-`undefined` value (optional chaining `?.`). -/
def jsFieldOpt (j : Option Json) (k : String) : Option Json :=
  match j with
  | none => none
  | some v => jsField v k

/-- JavaScript `a || b` for a possibly-`undefined` `a`. -/
def jsOr (a : Option Json) (b : Json) : Json :=
  match a with
  | some j => if jsTruthy j then j else b
  | none => b

/-- JavaScript strict equality `v === s` between a possibly-`undefined` value
and a string literal: true exactly when `v` is that string. -/
def isStrVal (j : Option Json) (s : String) : Bool :=
  match j with
  | some (.str t) => t = s
  | _ => false

/-- Replace the value of key `k` (or append it) in an object; other values are
returned unchanged.  Models `{...o, k: v}` where `k` is already a key of `o`. -/
def jsObjSet : Json → String → Json → Json
  | .obj kvs, k, v =>
      if kvs.any (fun kv => kv.1 = k) then
        .obj (kvs.map (fun kv => if kv.1 = k then (k, v) else kv))
      else
        .obj (kvs ++ [(k, v)])
  | j, _, _ => j

mutual

/-- JavaScript `String(v)` conversion (template-literal interpolation). -/
def jsDisplay : Json → String
  | .null => "null"
  | .bool b => if b then "true" else "false"
  | .num n => toString n
  | .str s => s
  | .arr xs => jsDisplayList xs
  | .obj _ => "[object Object]"

/-- Model of `Array.prototype.toString`: elements joined with commas. -/
def jsDisplayList : List Json → String
  | [] => ""
  | [x] => jsDisplay x
  | x :: y :: rest => jsDisplay x ++ "," ++ jsDisplayList (y :: rest)

end

/-- Model of `String(v)` where `v` may be `undefined`. -/
def jsDisplayOpt : Option Json → String
  | none => "undefined"
  | some j => jsDisplay j

/-- Hex digit for a value below 16. -/
def hexDigit (n : Nat) : Char :=
  if n < 10 then Char.ofNat (48 + n) else Char.ofNat (55 + n % 16)

/-- Two-digit uppercase hex of a byte. -/
def hexByte (n : Nat) : String :=
  String.mk [hexDigit ((n / 16) % 16), hexDigit (n % 16)]

/-- UTF-8 bytes of a unicode code point. -/
def utf8Bytes (n : Nat) : List Nat :=
  if n < 0x80 then [n]
  else if n < 0x800 then [0xC0 + n / 64, 0x80 + n % 64]
  else if n < 0x10000 then [0xE0 + n / 4096, 0x80 + (n / 64) % 64, 0x80 + n % 64]
  else [0xF0 + n / 262144, 0x80 + (n / 4096) % 64, 0x80 + (n / 64) % 64, 0x80 + n % 64]

/-- Model of `encodeURIComponent`: unreserved characters kept, others percent-encoded. -/
def encodeURIComponent (s : String) : String :=
  s.data.foldl
    (fun acc c =>
      if c.isAlphanum || c ∈ ['-', '_', '.', '!', '~', '*', '(', ')'] || c = Char.ofNat 39 then
        acc ++ String.mk [c]
      else
        acc ++ String.join ((utf8Bytes c.toNat).map (fun b => "%" ++ hexByte b)))
    ""

/-- Escape of one character inside a JSON string literal. -/
def stringifyChar (c : Char) : String :=
  if c = '"' then "\\\""
  else if c = '\\' then "\\\\"
  else if c = '\n' then "\\n"
  else if c = '\r' then "\\r"
  else if c = '\t' then "\\t"
  else if c.toNat < 32 then "\\u00" ++ hexByte c.toNat
  else String.mk [c]

mutual

/-- Model of `JSON.stringify` (compact form, as called with a single argument). -/
def stringifyJson : Json → String
  | .null => "null"
  | .bool b => if b then "true" else "false"
  | .num n => toString n
  | .str s => "\"" ++ String.join (s.data.map stringifyChar) ++ "\""
  | .arr xs => "[" ++ stringifyJsonList xs ++ "]"
  | .obj kvs => "\x7b" ++ stringifyJsonFields kvs ++ "\x7d"

def stringifyJsonList : List Json → String
  | [] => ""
  | [x] => stringifyJson x
  | x :: y :: rest => stringifyJson x ++ "," ++ stringifyJsonList (y :: rest)

def stringifyJsonFields : List (String × Json) → String
  | [] => ""
  | [kv] => "\"" ++ String.join (kv.1.data.map stringifyChar) ++ "\":" ++ stringifyJson kv.2
  | kv :: kv2 :: rest =>
      "\"" ++ String.join (kv.1.data.map stringifyChar) ++ "\":" ++ stringifyJson kv.2
        ++ "," ++ stringifyJsonFields (kv2 :: rest)

end

/-! ### `JSON.parse`

A recursive-descent parser modelling `JSON.parse`.  Recursion is bounded by a
fuel argument; the initial fuel `length + 1` always suffices because every
recursive call consumes at least one character. -/

/-- JSON insignificant whitespace. -/
def isJsonWs (c : Char) : Bool :=
  c = ' ' || c = '\t' || c = '\n' || c = '\r'

/-- Parse the body of a string literal after the opening quote; returns the
accumulated characters and the remaining input after the closing quote. -/
def parseStringBody (fuel : Nat) (cs : List Char) (acc : List Char) :
    Except String (String × List Char) :=
  match fuel, cs with
  | 0, _ => .error "Unexpected end of JSON input"
  | _, [] => .error "Unexpected end of JSON input"
  | fuel + 1, c :: rest =>
      if c = '"' then .ok (String.mk acc.reverse, rest)
      else if c = '\\' then
        match rest with
        | [] => .error "Unexpected end of JSON input"
        | e :: rest2 =>
            if e = '"' then parseStringBody fuel rest2 ('"' :: acc)
            else if e = '\\' then parseStringBody fuel rest2 ('\\' :: acc)
            else if e = '/' then parseStringBody fuel rest2 ('/' :: acc)
            else if e = 'n' then parseStringBody fuel rest2 ('\n' :: acc)
            else if e = 't' then parseStringBody fuel rest2 ('\t' :: acc)
            else if e = 'r' then parseStringBody fuel rest2 ('\r' :: acc)
            else if e = 'b' then parseStringBody fuel rest2 (Char.ofNat 8 :: acc)
            else if e = 'f' then parseStringBody fuel rest2 (Char.ofNat 12 :: acc)
            else .error "Bad escaped character in JSON"
      else parseStringBody fuel rest (c :: acc)

/-- Digits of a natural number literal. -/
def digitsToNat (ds : List Char) : Nat :=
  ds.foldl (fun acc d => acc * 10 + (d.toNat - 48)) 0

mutual

/-- Parse one JSON value at the head of the input (whitespace already
skipped); returns the value and the remaining input. -/
def parseValue (fuel : Nat) (cs : List Char) : Except String (Json × List Char) :=
  match fuel with
  | 0 => .error "Unexpected end of JSON input"
  | fuel + 1 =>
    match cs with
    | [] => .error "Unexpected end of JSON input"
    | c :: rest =>
        if c = 'n' then
          if rest.take 3 = ['u', 'l', 'l'] then .ok (.null, rest.drop 3)
          else .error "Unexpected token in JSON"
        else if c = 't' then
          if rest.take 3 = ['r', 'u', 'e'] then .ok (.bool true, rest.drop 3)
          else .error "Unexpected token in JSON"
        else if c = 'f' then
          if rest.take 4 = ['a', 'l', 's', 'e'] then .ok (.bool false, rest.drop 4)
          else .error "Unexpected token in JSON"
        else if c = '"' then
          match parseStringBody (rest.length + 1) rest [] with
          | .ok (s, rest2) => .ok (.str s, rest2)
          | .error e => .error e
        else if c = '-' then
          match rest with
          | d :: _ =>
              if d.isDigit then
                let ds := rest.takeWhile Char.isDigit
                .ok (.num (-(digitsToNat ds : Int)), rest.drop ds.length)
              else .error "Unexpected token in JSON"
          | [] => .error "Unexpected end of JSON input"
        else if c.isDigit then
          let ds := cs.takeWhile Char.isDigit
          .ok (.num (digitsToNat ds : Int), cs.drop ds.length)
        else if c = '[' then
          let rest2 := rest.dropWhile isJsonWs
          match rest2 with
          | ']' :: rest3 => .ok (.arr [], rest3)
          | _ =>
            match parseElements fuel rest2 with
            | .ok (xs, rest3) => .ok (.arr xs, rest3)
            | .error e => .error e
        else if c = Char.ofNat 123 then
          let rest2 := rest.dropWhile isJsonWs
          match rest2 with
          | d :: rest3 =>
              if d = Char.ofNat 125 then .ok (.obj [], rest3)
              else
                match parseMembers fuel (d :: rest3) with
                | .ok (kvs, rest4) => .ok (.obj kvs, rest4)
                | .error e => .error e
          | [] => .error "Unexpected end of JSON input"
        else .error "Unexpected token in JSON"

/-- Parse comma-separated array elements up to the closing bracket. -/
def parseElements (fuel : Nat) (cs : List Char) : Except String (List Json × List Char) :=
  match fuel with
  | 0 => .error "Unexpected end of JSON input"
  | fuel + 1 =>
    match parseValue fuel cs with
    | .error e => .error e
    | .ok (v, rest) =>
      match rest.dropWhile isJsonWs with
      | ']' :: rest2 => .ok ([v], rest2)
      | ',' :: rest2 =>
          match parseElements fuel (rest2.dropWhile isJsonWs) with
          | .ok (xs, rest3) => .ok (v :: xs, rest3)
          | .error e => .error e
      | _ => .error "Unexpected token in JSON"

/-- Parse comma-separated object members up to the closing brace. -/
def parseMembers (fuel : Nat) (cs : List Char) : Except String (List (String × Json) × List Char) :=
  match fuel with
  | 0 => .error "Unexpected end of JSON input"
  | fuel + 1 =>
    match cs with
    | '"' :: rest =>
      match parseStringBody (rest.length + 1) rest [] with
      | .error e => .error e
      | .ok (k, rest2) =>
        match rest2.dropWhile isJsonWs with
        | ':' :: rest3 =>
          match parseValue fuel (rest3.dropWhile isJsonWs) with
          | .error e => .error e
          | .ok (v, rest4) =>
            match rest4.dropWhile isJsonWs with
            | d :: rest5 =>
                if d = Char.ofNat 125 then .ok ([(k, v)], rest5)
                else if d = ',' then
                  match parseMembers fuel (rest5.dropWhile isJsonWs) with
                  | .ok (kvs, rest6) => .ok ((k, v) :: kvs, rest6)
                  | .error e => .error e
                else .error "Unexpected token in JSON"
            | [] => .error "Unexpected end of JSON input"
        | _ => .error "Unexpected token in JSON"
    | _ => .error "Unexpected token in JSON"

end

/-- Model of `JSON.parse`: parse a complete document, allowing surrounding whitespace. -/
def parseJson (s : String) : Except String Json :=
  let cs := s.data.dropWhile isJsonWs
  match parseValue (cs.length + 1) cs with
  | .error e => .error e
  | .ok (v, rest) =>
      if rest.dropWhile isJsonWs = [] then .ok v
      else .error "Unexpected non-whitespace character after JSON"

/-! ### Small string utilities shared by the embedded services -/

/-- Split `cs` at the first occurrence of `pat`: the part before and after. -/
def findSplit (pat : List Char) : List Char → Option (List Char × List Char)
  | [] => if pat = [] then some ([], []) else none
  | c :: rest =>
      if (c :: rest).take pat.length = pat then some ([], (c :: rest).drop pat.length)
      else (findSplit pat rest).map (fun ba => (c :: ba.1, ba.2))

/-- JavaScript `s.replace(pat, repl)` with a string pattern: first occurrence only. -/
def replaceFirst (s pat repl : String) : String :=
  match findSplit pat.data s.data with
  | some (before, after) => String.mk (before ++ repl.data ++ after)
  | none => s

/-- The split loop behind `jsSplit`; the fuel (initially more than the input
length) is never exhausted because every found occurrence consumes at least
one character. -/
def splitOnListF (pat : List Char) : Nat → List Char → List (List Char)
  | 0, cs => [cs]
  | fuel + 1, cs =>
    match findSplit pat cs with
    | some (before, after) => before :: splitOnListF pat fuel after
    | none => [cs]

/-- JavaScript `s.split(sep)` for a non-empty string separator. -/
def jsSplit (s : String) (sep : String) : List String :=
  (splitOnListF sep.data (s.data.length + 1) s.data).map String.mk

/-- ASCII `toLowerCase`. -/
def jsToLower (s : String) : String :=
  String.mk (s.data.map (fun c => if 'A' ≤ c && c ≤ 'Z' then Char.ofNat (c.toNat + 32) else c))

/-- The literal `{` (written by code point to keep string literals brace-free). -/
def lbrace : String := String.mk [Char.ofNat 123]

/-- The literal `}`. -/
def rbrace : String := String.mk [Char.ofNat 125]

/-! ### Data model (`api-planner.interface.ts`)

`ApiCallPlan`, `ExecutionResult`, `ExecutionErrorType`, `StandardizedError`
and `ParameterGenerationResult` as declared in the interface file.  Fields
typed `any` in TypeScript — and fields that at runtime receive unvalidated
parsed JSON, such as `ParameterGenerationResult.status`/`parameters` (the
parser casts without checking) — are modelled as `Json`. -/

structure ApiCallPlan where
  step : Nat
  endpointId : String
  apiName : String
  featureName : String
  endpoint : String
  method : String
  description : String
  baseUrl : String
  swaggerUrl : String
deriving Repr

/-- The fixed error taxonomy (`ExecutionErrorType`). -/
inductive ExecutionErrorType where
  | SWAGGER_ERROR
  | PARAMETER_GENERATION_ERROR
  | HTTP_REQUEST_ERROR
  | VALIDATION_ERROR
  | INSUFFICIENT_DATA
  | UNKNOWN_ERROR
deriving DecidableEq, Repr

structure ExecutionResult where
  step : Nat
  endpoint : String
  method : String
  requestParameters : Json
  requestBody : Json
  response : Json
  responseStatus : Int
  success : Bool
  error : Option Json
  errorType : Option ExecutionErrorType
  errorDetails : Option Json
deriving Repr

structure StandardizedError where
  type : ExecutionErrorType
  message : String
  details : Option Json
  step : Option Nat
deriving Repr

structure ParameterGenerationResult where
  status : Json
  parameters : Json
  body : Json
  message : Option Json
deriving Repr

/-- Model of `HTTP_STATUS.SUCCESS_MIN` (`constants/http.constants.ts`). -/
def HTTP_STATUS_SUCCESS_MIN : Int := 200

/-- Model of `HTTP_STATUS.SUCCESS_MAX`. -/
def HTTP_STATUS_SUCCESS_MAX : Int := 299

/-! ### Swagger service (`swagger.service.ts`) -/

/-- Model of `resolveSchemaRef`: resolve a `#/components/schemas/Name` reference in the
document; anything unresolvable yields the unresolved marker `{$ref: ref}`. -/
def resolveSchemaRef (ref : String) (swaggerJson : Option Json) : Json :=
  let path := jsSplit (replaceFirst ref "#/" "") "/"
  if !jsTruthyOpt swaggerJson || path.length < 2 then
    .obj [("$ref", .str ref)]
  else if path.get? 0 == some "components" && path.get? 1 == some "schemas"
      && (match path.get? 2 with | some s => s ≠ "" | none => false : Bool) then
    let schemaName := (path.get? 2).getD ""
    match jsFieldOpt (jsFieldOpt (jsFieldOpt swaggerJson "components") "schemas") schemaName with
    | some schema => if jsTruthy schema then schema else .obj [("$ref", .str ref)]
    | none => .obj [("$ref", .str ref)]
  else
    .obj [("$ref", .str ref)]

/-- The record returned by `getEndpointSchema` on success. -/
structure EndpointSchema where
  parameters : Json
  requestBody : Option Json
  summary : Option Json
  description : Option Json
  swaggerJson : Json
deriving Repr

/-- The pure part of `getEndpointSchema` after the document fetch: look up the
operation at `(path, lowercased method)`; `none` models the `null` return when
the operation is absent.  A `$ref` directly under the request body content is
resolved once. -/
def getEndpointSchemaCore (swaggerJson : Json) (endpointPath method : String) :
    Option EndpointSchema :=
  let paths := jsOr (jsField swaggerJson "paths") (.obj [])
  let methodLower := jsToLower method
  match jsField paths endpointPath with
  | none => none
  | some pathEntry =>
    if !jsTruthy pathEntry then none
    else
      match jsField pathEntry methodLower with
      | none => none
      | some operation =>
        if !jsTruthy operation then none
        else
          let requestBody := jsField operation "requestBody"
          let refVal := jsFieldOpt (jsFieldOpt (jsFieldOpt (jsFieldOpt requestBody "content")
            "application/json") "schema") "$ref"
          let resolvedRequestBody :=
            match refVal with
            | some (.str ref) =>
                if jsTruthy (.str ref) then
                  let resolvedSchema := resolveSchemaRef ref (some swaggerJson)
                  if jsTruthy resolvedSchema && !jsTruthyOpt (jsField resolvedSchema "$ref") then
                    some (jsObjSet (requestBody.getD .null) "content"
                      (.obj [("application/json", .obj [("schema", resolvedSchema)])]))
                  else requestBody
                else requestBody
            | _ => requestBody
          some { parameters := jsOr (jsField operation "parameters") (.arr []),
                 requestBody := resolvedRequestBody,
                 summary := jsField operation "summary",
                 description := jsField operation "description",
                 swaggerJson := swaggerJson }

/-- Model of `fetchSwaggerJson`: the document fetch, modelled by an oracle; `none`
models a failed fetch, which throws `BadRequestException` with this message.
(The location-keyed cache only memoizes the oracle, which is already pure.) -/
def fetchSwaggerJson (fetchO : String → Option Json) (url : String) : Except String Json :=
  match fetchO url with
  | some j => .ok j
  | none => .error ("Failed to fetch Swagger documentation from: " ++ url)

/-- Model of `getEndpointSchema`: fetch the document, then look up the operation. -/
def getEndpointSchema (fetchO : String → Option Json) (swaggerUrl endpointPath method : String) :
    Except String (Option EndpointSchema) :=
  (fetchSwaggerJson fetchO swaggerUrl).map
    (fun swaggerJson => getEndpointSchemaCore swaggerJson endpointPath method)

/-! ### HTTP executor (`http-executor.service.ts`)

The injected services appear as oracle parameters: `fetchO` is the Swagger
document source behind `SwaggerService`, `aiO` the text-generation backend
behind `OpenAIService` (as a function of the data `buildParameterContext`
renders into the prompt; the backend is an arbitrary function of the rendered
prompt, so an arbitrary function of the data subsumes it), and `httpO` the
`HttpService` transport.  The pair returned by the executor functions carries
the list of dispatched HTTP requests, so "no outbound call is made" is the
second component being `[]`. -/

/-- Model of `createStandardizedError`. -/
def createStandardizedError (type : ExecutionErrorType) (message : String)
    (details : Option Json) (step : Option Nat) : StandardizedError :=
  { type := type, message := message, details := details, step := step }

/-- Model of `createErrorResult`: a failed result for a step, before any HTTP call. -/
def createErrorResult (step : ApiCallPlan) (errorType : ExecutionErrorType)
    (message : Json) : ExecutionResult :=
  { step := step.step, endpoint := step.endpoint, method := step.method,
    requestParameters := .arr [], requestBody := .null, response := .null,
    responseStatus := 0, success := false, error := some message,
    errorType := some errorType, errorDetails := some (.obj [("message", message)]) }

/-- Model of `validateParameterResult`: map a non-`SUCCESS` generation status to its
error result (`some`), or `none` when execution may proceed. -/
def validateParameterResult (parameterResult : ParameterGenerationResult)
    (step : ApiCallPlan) : Option ExecutionResult :=
  if isStrVal (some parameterResult.status) "INSUFFICIENT_DATA" then
    some (createErrorResult step .INSUFFICIENT_DATA
      (jsOr parameterResult.message (.str "Insufficient data")))
  else if isStrVal (some parameterResult.status) "INSUFFICIENT_SCHEMA" then
    some (createErrorResult step .SWAGGER_ERROR
      (jsOr parameterResult.message (.str "Insufficient schema")))
  else if isStrVal (some parameterResult.status) "ERROR" then
    some (createErrorResult step .PARAMETER_GENERATION_ERROR
      (jsOr parameterResult.message (.str "Parameter generation error")))
  else none

/-- The `{response, status}` pair a completed HTTP call produces. -/
structure HttpResult where
  response : Json
  status : Int
deriving Repr

/-- Model of `buildExecutionResult`: success is status within `[SUCCESS_MIN, SUCCESS_MAX]`;
otherwise a failed result whose `error` is the "HTTP status: body" string and
whose `errorType` is left unset. -/
def buildExecutionResult (step : ApiCallPlan) (parameterResult : ParameterGenerationResult)
    (httpResult : HttpResult) : ExecutionResult :=
  let isSuccess := decide (HTTP_STATUS_SUCCESS_MIN ≤ httpResult.status)
    && decide (httpResult.status ≤ HTTP_STATUS_SUCCESS_MAX)
  { step := step.step, endpoint := step.endpoint, method := step.method,
    requestParameters := parameterResult.parameters,
    requestBody := parameterResult.body,
    response := httpResult.response, responseStatus := httpResult.status,
    success := isSuccess,
    error := if !isSuccess then
        some (.str ("HTTP " ++ toString httpResult.status ++ ": "
          ++ stringifyJson httpResult.response))
      else none,
    errorType := none, errorDetails := none }

/-- Model of `buildParameterResult` (its callers `extractJsonFromResponse` and
`parseParameterResponse` live below with the code-fence matcher). -/
def buildParameterResult (parsed : Json) : ParameterGenerationResult :=
  let status := jsField parsed "status"
  if isStrVal status "INSUFFICIENT_DATA" then
    { status := .str "INSUFFICIENT_DATA", parameters := .arr [], body := .null,
      message := jsField parsed "message" }
  else if isStrVal status "INSUFFICIENT_SCHEMA" then
    { status := .str "INSUFFICIENT_SCHEMA", parameters := .arr [], body := .null,
      message := jsField parsed "message" }
  else
    { status := jsOr status (.str "SUCCESS"),
      parameters := jsOr (jsField parsed "parameters") (.arr []),
      body := jsOr (jsField parsed "body") .null,
      message := none }

/-- Model of `createParameterError`: any exception inside parameter generation becomes
an `ERROR` result with the exception message embedded. -/
def createParameterError (message : String) : ParameterGenerationResult :=
  { status := .str "ERROR", parameters := .arr [], body := .null,
    message := some (.str ("Ошибка парсинга ответа ИИ: " ++ message)) }

/-- Model of `validatePathParameters`: names of `{placeholder}`s in the endpoint with no
`path`-located generated parameter of that name, in placeholder order. -/
def extractPlaceholdersF : Nat → List Char → List String
  | 0, _ => []
  | fuel + 1, cs =>
    match cs with
    | [] => []
    | c :: rest =>
      if c = Char.ofNat 123 then
        let nm := rest.takeWhile (fun d => !(d = Char.ofNat 125))
        if nm.length < rest.length then
          if nm.isEmpty then extractPlaceholdersF fuel rest
          else String.mk nm :: extractPlaceholdersF fuel (rest.drop (nm.length + 1))
        else extractPlaceholdersF fuel rest
      else extractPlaceholdersF fuel rest

/-- All `/\{([^}]+)\}/g` matches of the endpoint template.  The scan advances
at least one character per step, so the initial fuel is never exhausted. -/
def extractPlaceholders (cs : List Char) : List String :=
  extractPlaceholdersF (cs.length + 1) cs

def validatePathParameters (endpoint : String) (pathParams : List Json) : List String :=
  (extractPlaceholders endpoint.data).filter
    (fun requiredParam => !pathParams.any (fun p => isStrVal (jsField p "name") requiredParam))

/-- A dispatched HTTP request, as assembled by `HttpRequestBuilder` and
`httpService.request`. -/
structure HttpRequest where
  method : String
  url : String
  headers : List (String × String)
  data : Json
deriving Repr

/-- JavaScript object property assignment `headers[name] = value`. -/
def setHeader (hs : List (String × String)) (k v : String) : List (String × String) :=
  if hs.any (fun h => h.1 = k) then hs.map (fun h => if h.1 = k then (k, v) else h)
  else hs ++ [(k, v)]

/-- Model of `HttpRequestBuilder.buildRequest`: query string, headers, then literal
path-placeholder substitution (first occurrence, as `String.replace` does). -/
def buildRequest (baseUrl endpoint : String) (parameters : List Json) :
    String × List (String × String) :=
  let url := baseUrl ++ endpoint
  let queryParams := parameters.filter (fun p => isStrVal (jsField p "location") "query")
  let url := if queryParams.length > 0 then
      url ++ "?" ++ String.intercalate "&" (queryParams.map (fun p =>
        encodeURIComponent (jsDisplayOpt (jsField p "name")) ++ "="
          ++ encodeURIComponent (jsDisplayOpt (jsField p "value"))))
    else url
  let headers := (parameters.filter (fun p => isStrVal (jsField p "location") "header")).foldl
    (fun hs p => setHeader hs (jsDisplayOpt (jsField p "name")) (jsDisplayOpt (jsField p "value"))) []
  let pathParams := parameters.filter (fun p => isStrVal (jsField p "location") "path")
  let finalUrl := pathParams.foldl
    (fun u p => replaceFirst u (lbrace ++ jsDisplayOpt (jsField p "name") ++ rbrace)
      (jsDisplayOpt (jsField p "value"))) url
  (finalUrl, headers)

/-- The transport outcome of one dispatched request: a response, an error
carrying a response (4xx/5xx), or a transport error without a response. -/
inductive HttpOutcome where
  | response (data : Json) (status : Int)
  | errorResponse (data : Json) (status : Int)
  | errorNoResponse (message : String)

/-- Model of `makeHttpRequest`: validate path placeholders (throwing before any call),
assemble and dispatch the request, and normalize the outcome; the second
component lists the requests actually handed to the transport. -/
def makeHttpRequest (httpO : HttpRequest → HttpOutcome) (baseUrl endpoint method : String)
    (parameters : Json) (body : Json) : Except String HttpResult × List HttpRequest :=
  match parameters with
  | .arr ps =>
    let pathParams := ps.filter (fun p => isStrVal (jsField p "location") "path")
    let missingPathParams := validatePathParameters endpoint pathParams
    if missingPathParams ≠ [] then
      (.error ("Missing required path parameters: " ++ String.intercalate ", " missingPathParams), [])
    else
      let (url, headers) := buildRequest baseUrl endpoint ps
      let req : HttpRequest := { method := jsToLower method, url := url,
                                 headers := headers, data := body }
      match httpO req with
      | .response data status => (.ok ⟨data, status⟩, [req])
      | .errorResponse data status => (.ok ⟨data, status⟩, [req])
      | .errorNoResponse msg => (.error msg, [req])
  | _ => (.error "parameters.filter is not a function", [])

/-! ### Fenced-code-block extraction

`extractJsonFromResponse` matches `/```(?:json)?\s*([\s\S]*?)\s*```/` and
returns the captured group, or the whole response when there is no match.
The matcher below follows the regex semantics directly: scan for the leftmost
opening fence at which the rest of the pattern matches; after the opening fence the
optional `json` tag is consumed greedily, `\s*` consumes the whitespace run,
and the lazy group ends at the first position from which skipping whitespace
reaches a closing fence.  `\s` is modelled by its ASCII part. -/

/-- JavaScript `\s` (ASCII part). -/
def isJsWs (c : Char) : Bool :=
  c = ' ' || c = '\t' || c = '\n' || c = '\r' || c = Char.ofNat 11 || c = Char.ofNat 12

/-- Does the input start with three backticks? -/
def startsWithTicks (cs : List Char) : Bool :=
  match cs with
  | a :: b :: c :: _ => a = Char.ofNat 96 && b = Char.ofNat 96 && c = Char.ofNat 96
  | _ => false

/-- Lazy capture: the shortest prefix after which trailing whitespace and a
closing fence complete the match, or `none` when no closing fence exists. -/
def takeContent : List Char → Option (List Char)
  | [] => none
  | c :: rest =>
      if startsWithTicks ((c :: rest).dropWhile isJsWs) then some []
      else (takeContent rest).map (fun g => c :: g)

/-- Match the pattern tail right after an opening fence. -/
def matchAfterTicks (rest : List Char) : Option (List Char) :=
  let rest := if rest.take 4 = ['j', 's', 'o', 'n'] then rest.drop 4 else rest
  takeContent (rest.dropWhile isJsWs)

/-- Scan for the leftmost opening fence with a matching closing fence. -/
def extractLoop : List Char → Option (List Char)
  | [] => none
  | c :: rest =>
      if startsWithTicks (c :: rest) then
        match matchAfterTicks ((c :: rest).drop 3) with
        | some g => some g
        | none => extractLoop rest
      else extractLoop rest

/-- Model of `extractJsonFromResponse`. -/
def extractJsonFromResponse (response : String) : String :=
  match extractLoop response.data with
  | some g => String.mk g
  | none => response

/-- Model of `parseParameterResponse` (`JSON.parse` failures propagate as thrown
errors, caught by `generateParametersForStep`). -/
def parseParameterResponse (response : String) : Except String ParameterGenerationResult :=
  let jsonContent := extractJsonFromResponse response
  match parseJson jsonContent with
  | .error e => .error e
  | .ok parsed => .ok (buildParameterResult parsed)

/-! ### Parameter generation and step execution -/

/-- Model of `getSwaggerUrlForStep`: `null` when the step has no (falsy) swagger URL. -/
def getSwaggerUrlForStep (step : ApiCallPlan) : Option String :=
  if step.swaggerUrl = "" then none else some step.swaggerUrl

/-- Model of `getSwaggerSchema`: swagger URL, fetch, operation lookup; every failure is
a thrown error whose message is carried here. -/
def getSwaggerSchema (fetchO : String → Option Json) (step : ApiCallPlan) :
    Except String EndpointSchema :=
  match getSwaggerUrlForStep step with
  | none => .error ("No swagger URL found for step " ++ toString step.step)
  | some swaggerUrl =>
    match getEndpointSchema fetchO swaggerUrl step.endpoint step.method with
    | .error e => .error e
    | .ok none => .error ("Endpoint " ++ step.method ++ " " ++ step.endpoint
        ++ " not found in Swagger")
    | .ok (some schema) => .ok schema

/-- The text-generation backend, as a function of the data rendered into the
prompt by `buildParameterContext` (step, resolved schema, prior results, user
prompt). -/
def AiOracle : Type :=
  ApiCallPlan → EndpointSchema → List ExecutionResult → String → String

/-- Model of `generateParametersForStep`: schema lookup, backend round trip, response
parsing; any thrown error is caught and becomes an `ERROR` status result. -/
def generateParametersForStep (fetchO : String → Option Json) (aiO : AiOracle)
    (step : ApiCallPlan) (previousResults : List ExecutionResult) (userPrompt : String) :
    ParameterGenerationResult :=
  match getSwaggerSchema fetchO step with
  | .error msg => createParameterError msg
  | .ok swaggerSchema =>
    let response := aiO step swaggerSchema previousResults userPrompt
    match parseParameterResponse response with
    | .error msg => createParameterError msg
    | .ok result => result

/-- Model of `executeStep`: generate parameters, short-circuit on a non-`SUCCESS`
status, otherwise dispatch the HTTP call and build the result.  A thrown
error (`.error`) propagates to `executePlan`'s catch. -/
def executeStep (fetchO : String → Option Json) (aiO : AiOracle)
    (httpO : HttpRequest → HttpOutcome) (step : ApiCallPlan)
    (previousResults : List ExecutionResult) (userPrompt : String) :
    Except String ExecutionResult × List HttpRequest :=
  let parameterResult := generateParametersForStep fetchO aiO step previousResults userPrompt
  match validateParameterResult parameterResult step with
  | some validationResult => (.ok validationResult, [])
  | none =>
    match makeHttpRequest httpO step.baseUrl step.endpoint step.method
        parameterResult.parameters parameterResult.body with
    | (.ok httpResult, log) => (.ok (buildExecutionResult step parameterResult httpResult), log)
    | (.error e, log) => (.error e, log)

/-- The result `executePlan`'s catch branch appends for a thrown error. -/
def catchStepResult (step : ApiCallPlan) (errMessage : String) : ExecutionResult :=
  let standardizedError := createStandardizedError .UNKNOWN_ERROR
    ("Ошибка выполнения: " ++ errMessage)
    (some (.obj [("originalError", .str errMessage)])) (some step.step)
  { step := step.step, endpoint := step.endpoint, method := step.method,
    requestParameters := .arr [], requestBody := .null, response := .null,
    responseStatus := 0, success := false,
    error := some (.str standardizedError.message),
    errorType := some standardizedError.type,
    errorDetails := standardizedError.details }

/-- The loop of `executePlan`, with the accumulated results explicit. -/
def executePlanGo (fetchO : String → Option Json) (aiO : AiOracle)
    (httpO : HttpRequest → HttpOutcome) (userPrompt : String) :
    List ApiCallPlan → List ExecutionResult → List ExecutionResult × List HttpRequest
  | [], results => (results, [])
  | step :: restPlan, results =>
    match executeStep fetchO aiO httpO step results userPrompt with
    | (.ok result, log) =>
        if result.success then
          let (finalResults, logs) :=
            executePlanGo fetchO aiO httpO userPrompt restPlan (results ++ [result])
          (finalResults, log ++ logs)
        else (results ++ [result], log)
    | (.error e, log) => (results ++ [catchStepResult step e], log)

/-- Model of `executePlan`: run the steps in order, stopping at the first failure; a
thrown error is converted to an `UNKNOWN_ERROR` result and also stops the
run.  The second component lists every dispatched HTTP request. -/
def executePlan (fetchO : String → Option Json) (aiO : AiOracle)
    (httpO : HttpRequest → HttpOutcome) (plan : List ApiCallPlan) (userPrompt : String) :
    List ExecutionResult × List HttpRequest :=
  executePlanGo fetchO aiO httpO userPrompt plan []

/-! ### Stage-3 endpoint sequencing (`api-planner.service.ts`) -/

/-- An endpoint as listed to stage 3 (ids flattened from the features). -/
structure EndpointCand where
  id : String
  path : String
  method : String
  summary : String
  description : String
  parameters : Json
deriving Repr

/-- A planned endpoint call (`EndpointPlan`). -/
structure EndpointPlan where
  endpointId : String
  path : String
  method : String
  summary : String
  description : String
  parameters : Json
  step : Nat
deriving Repr

/-- JavaScript `String.prototype.trim` (ASCII whitespace part). -/
def jsTrim (s : String) : String :=
  String.mk (((s.data.dropWhile isJsWs).reverse.dropWhile isJsWs).reverse)

/-- Strip a leading `/^\d+\.\s*/` ordinal from one line. -/
def stripOrdinal (line : String) : String :=
  let ds := line.data.takeWhile Char.isDigit
  if ds ≠ [] && (line.data.drop ds.length).take 1 = ['.'] then
    String.mk ((line.data.drop (ds.length + 1)).dropWhile isJsWs)
  else line

/-- The id tokens of the stage-3 backend output: split on newlines, strip
ordinals, trim, drop empty lines. -/
def endpointIdTokens (content : String) : List String :=
  ((jsSplit content "\n").map (fun line => jsTrim (stripOrdinal line))).filter (fun id => id ≠ "")

/-- The match-and-number loop of `planEndpointSequence`: token `i` that matches
a known endpoint id becomes a plan entry with `step = i + 1`; unmatched tokens
are dropped. -/
def planSequenceLoop (allEndpoints : List EndpointCand) :
    List String → Nat → List EndpointPlan
  | [], _ => []
  | tok :: rest, i =>
    match allEndpoints.find? (fun e => e.id = tok) with
    | some endpoint =>
        { endpointId := endpoint.id, path := endpoint.path, method := endpoint.method,
          summary := endpoint.summary, description := endpoint.description,
          parameters := endpoint.parameters, step := i + 1 }
          :: planSequenceLoop allEndpoints rest (i + 1)
    | none => planSequenceLoop allEndpoints rest (i + 1)

/-- Model of `planEndpointSequence`, from the backend's raw stage-3 output. -/
def planEndpointSequence (responseContent : String) (allEndpoints : List EndpointCand) :
    List EndpointPlan :=
  planSequenceLoop allEndpoints (endpointIdTokens responseContent) 0

/-! ### Field-type rendering (`getFieldType` / `formatNestedObject`)

These two methods recurse into schemas reached through `resolveSchemaRef`,
which returns components of the document rather than subterms, so the
recursion is not structural; it is bounded here by an explicit fuel argument,
with `none` meaning the computation did not complete within the given fuel.
The JavaScript original has no such bound — `getFieldTypeF` completing for
some fuel is exactly the original terminating. -/

/-- Model of `ref.split('/').pop()`. -/
def lastSegment (ref : String) : String :=
  (jsSplit ref "/").getLastD ""

/-- Model of `Array.prototype.includes` against a string (used on `schema.required`). -/
def jsIncludesStr (j : Json) (s : String) : Bool :=
  match j with
  | .arr xs => xs.any (fun x => isStrVal (some x) s)
  | _ => false

/-- Model of `Array.prototype.join` with a separator. -/
def jsJoin (j : Json) (sep : String) : String :=
  match j with
  | .arr xs => String.intercalate sep (xs.map jsDisplay)
  | _ => jsDisplay j

/-- The ` - description (пример: ...) (возможные значения: ...)` suffix both
renderers append after a field's type. -/
def fieldSuffix (fieldInfo : Json) : String :=
  let s := ""
  let s := if jsTruthyOpt (jsField fieldInfo "description") then
      s ++ " - " ++ jsDisplayOpt (jsField fieldInfo "description") else s
  let s := if jsTruthyOpt (jsField fieldInfo "example") then
      s ++ " (пример: " ++ jsDisplayOpt (jsField fieldInfo "example") ++ ")" else s
  if jsTruthyOpt (jsField fieldInfo "enum") then
    s ++ " (возможные значения: " ++ jsJoin ((jsField fieldInfo "enum").getD .null) ", " ++ ")"
  else s

mutual

/-- Model of `getFieldType`: explicit `type`, first `allOf` branch, `$ref`, `enum`,
array of items, else `unknown`. -/
def getFieldTypeF (fuel : Nat) (swaggerJson : Option Json) (fieldInfo : Json) :
    Option String :=
  match fuel with
  | 0 => none
  | fuel + 1 =>
    if jsTruthyOpt (jsField fieldInfo "type") then
      some (jsDisplayOpt (jsField fieldInfo "type"))
    else
      let allOfBranch : Option (Option String) :=
        match jsField fieldInfo "allOf" with
        | some (.arr (firstAllOf :: _)) =>
            if jsTruthyOpt (jsField firstAllOf "$ref") then
              match jsField firstAllOf "$ref" with
              | some (.str ref) =>
                  let resolvedSchema := resolveSchemaRef ref swaggerJson
                  if jsTruthy resolvedSchema && !jsTruthyOpt (jsField resolvedSchema "$ref") then
                    some (formatNestedObjectF fuel swaggerJson resolvedSchema)
                  else some (some ("object (" ++ lastSegment ref ++ ")"))
              | _ => none
            else if jsTruthyOpt (jsField firstAllOf "type") then
              some (some (jsDisplayOpt (jsField firstAllOf "type")))
            else none
        | _ => none
      match allOfBranch with
      | some r => r
      | none =>
        if jsTruthyOpt (jsField fieldInfo "$ref") then
          match jsField fieldInfo "$ref" with
          | some (.str ref) =>
              let resolvedSchema := resolveSchemaRef ref swaggerJson
              if jsTruthy resolvedSchema && !jsTruthyOpt (jsField resolvedSchema "$ref") then
                formatNestedObjectF fuel swaggerJson resolvedSchema
              else some ("object (" ++ lastSegment ref ++ ")")
          | _ => some "unknown"
        else if jsTruthyOpt (jsField fieldInfo "enum") then some "enum"
        else if jsTruthyOpt (jsField fieldInfo "items") then
          match getFieldTypeF fuel swaggerJson ((jsField fieldInfo "items").getD .null) with
          | some itemType => some ("array<" ++ itemType ++ ">")
          | none => none
        else some "unknown"

/-- Model of `formatNestedObject`: object schemas are rendered field by field (each
field type via `getFieldType`), other schemas as `object (type)`. -/
def formatNestedObjectF (fuel : Nat) (swaggerJson : Option Json) (schema : Json) :
    Option String :=
  match fuel with
  | 0 => none
  | fuel + 1 =>
    if isStrVal (jsField schema "type") "object" && jsTruthyOpt (jsField schema "properties") then
      let requiredJ := jsOr (jsField schema "required") (.arr [])
      let props := match jsField schema "properties" with
        | some (.obj kvs) => kvs
        | _ => []
      match formatNestedFieldsF fuel swaggerJson requiredJ props with
      | some body => some ("object \x7b\n" ++ body ++ "\x7d")
      | none => none
    else
      some ("object (" ++ jsDisplay (jsOr (jsField schema "type") (.str "unknown")) ++ ")")

/-- The property loop inside `formatNestedObject`. -/
def formatNestedFieldsF (fuel : Nat) (swaggerJson : Option Json) (requiredJ : Json)
    (props : List (String × Json)) : Option String :=
  match fuel with
  | 0 => none
  | fuel + 1 =>
    match props with
    | [] => some ""
    | (fieldName, fieldInfo) :: rest =>
      match getFieldTypeF fuel swaggerJson fieldInfo with
      | none => none
      | some fieldType =>
        match formatNestedFieldsF fuel swaggerJson requiredJ rest with
        | none => none
        | some restText =>
          some ("  " ++ fieldName
            ++ (if jsIncludesStr requiredJ fieldName then " (ОБЯЗАТЕЛЬНО)" else " (опционально)")
            ++ ": " ++ fieldType ++ fieldSuffix fieldInfo ++ "\n" ++ restText)

end

/-! ### Test fixtures -/

def docUsers : Json :=
  .obj [("paths", .obj [("/users/\x7bid\x7d", .obj [("get", .obj [("summary", .str "Get user")])])])]

def stepUsers : ApiCallPlan :=
  { step := 1, endpointId := "ep1", apiName := "A", featureName := "F",
    endpoint := "/users/\x7bid\x7d", method := "GET", description := "d",
    baseUrl := "http://api", swaggerUrl := "http://api/swagger" }

def fetchUsers : String → Option Json := fun _ => some docUsers

def aiSuccessNoParams : AiOracle :=
  fun _ _ _ _ => "\x7b\"status\": \"SUCCESS\", \"parameters\": [], \"body\": null\x7d"

def http500 : HttpRequest → HttpOutcome := fun _ => .response (.str "boom") 500

def aiInsufficientData : AiOracle :=
  fun _ _ _ _ =>
    "\x7b\"status\": \"INSUFFICIENT_DATA\", \"message\": \"missing X\", \"parameters\": [], \"body\": \x7b\x7d\x7d"

def epCand : EndpointCand :=
  { id := "ep1", path := "/x", method := "GET", summary := "s", description := "d",
    parameters := .null }

def docEmpty : Json := .obj [("paths", .obj [])]

def stepPlain : ApiCallPlan :=
  { step := 1, endpointId := "ep1", apiName := "A", featureName := "F",
    endpoint := "/users", method := "GET", description := "d",
    baseUrl := "http://api", swaggerUrl := "http://api/swagger" }

def docPlain : Json :=
  .obj [("paths", .obj [("/users", .obj [("get", .obj [("summary", .str "s")])])])]

/-- The shape every failed result of a run actually has: a present error
message, and either one of the four error types the executor assigns, or no
error type together with the `"HTTP <status>: <body>"` message (the
status-range failure). -/
def failedResultShape (r : ExecutionResult) : Prop :=
  r.error.isSome = true ∧
  (r.errorType = some .INSUFFICIENT_DATA ∨ r.errorType = some .SWAGGER_ERROR ∨
   r.errorType = some .PARAMETER_GENERATION_ERROR ∨ r.errorType = some .UNKNOWN_ERROR ∨
   (r.errorType = none ∧ r.error = some (.str ("HTTP " ++ toString r.responseStatus ++ ": "
     ++ stringifyJson r.response))))

def stepA : ApiCallPlan :=
  { step := 1, endpointId := "a", apiName := "A", featureName := "F",
    endpoint := "/a", method := "GET", description := "d",
    baseUrl := "http://api", swaggerUrl := "http://api/swagger" }

def stepB : ApiCallPlan :=
  { step := 2, endpointId := "b", apiName := "A", featureName := "F",
    endpoint := "/b", method := "GET", description := "d",
    baseUrl := "http://api", swaggerUrl := "http://api/swagger" }

def docTwo : Json :=
  .obj [("paths", .obj [("/a", .obj [("get", .obj [("summary", .str "s")])]),
                        ("/b", .obj [("get", .obj [("summary", .str "s")])])])]

def httpTwo : HttpRequest → HttpOutcome :=
  fun req => if req.url = "http://api/a" then .response (.str "ok") 200
             else .response (.str "bad") 500

def cycDoc : Json :=
  .obj [("components", .obj [("schemas", .obj [("A",
    .obj [("type", .str "object"),
          ("properties", .obj [("self", .obj [("$ref", .str "#/components/schemas/A")])])])])])]

def cycField : Json := .obj [("$ref", .str "#/components/schemas/A")]

def cycSchemaA : Json :=
  .obj [("type", .str "object"),
        ("properties", .obj [("self", .obj [("$ref", .str "#/components/schemas/A")])])]

def okDoc : Json :=
  .obj [("components", .obj [("schemas", .obj [("B",
    .obj [("type", .str "object"),
          ("properties", .obj [("x", .obj [("type", .str "string")])])])])])]

def tick : Char := Char.ofNat 96

def wrapFencedJson (t : String) : String := "```json\n" ++ t ++ "\n```"

def wrapFenced (t : String) : String := "```\n" ++ t ++ "\n```"

/-- Does the text contain a ``` fence anywhere? -/
def hasTripleTick : List Char → Bool
  | [] => false
  | c :: rest => startsWithTicks (c :: rest) || hasTripleTick rest

/-- The first character, if any, is not `\s`-whitespace. -/
def headNotWs (cs : List Char) : Bool :=
  match cs.head? with
  | some c => !isJsWs c
  | none => true

/-- The last character, if any, is not `\s`-whitespace. -/
def lastNotWs (cs : List Char) : Bool :=
  match cs.getLast? with
  | some c => !isJsWs c
  | none => true








/-! ### Helper lemmas -/

theorem jsOr_of_falsy {a : Option Json} {b : Json} (h : jsTruthyOpt a = false) :
    jsOr a b = b := by
  cases a with
  | none => rfl
  | some j => simp [jsTruthyOpt] at h; simp [jsOr, h]

theorem isStrVal_false_of_falsy {a : Option Json} {s : String}
    (h : jsTruthyOpt a = false) (hs : s ≠ "") : isStrVal a s = false := by
  cases a with
  | none => rfl
  | some j =>
    cases j with
    | str t =>
      simp [jsTruthyOpt, jsTruthy] at h
      subst h
      simp [isStrVal]
      exact fun hh => hs hh.symm
    | null => rfl
    | bool b => rfl
    | num n => rfl
    | arr xs => rfl
    | obj kvs => rfl

/-- C10: a parsed response object with an absent or falsy `status` is treated
as a successful generation with defaulted `parameters` and `body`. -/
theorem buildParameterResult_defaults_to_success (parsed : Json)
    (h : jsTruthyOpt (jsField parsed "status") = false) :
    (buildParameterResult parsed).status = .str "SUCCESS" ∧
    (buildParameterResult parsed).parameters = jsOr (jsField parsed "parameters") (.arr []) ∧
    (buildParameterResult parsed).body = jsOr (jsField parsed "body") .null ∧
    (buildParameterResult parsed).message = none := by
  have h1 := isStrVal_false_of_falsy h (s := "INSUFFICIENT_DATA") (by decide)
  have h2 := isStrVal_false_of_falsy h (s := "INSUFFICIENT_SCHEMA") (by decide)
  simp [buildParameterResult, h1, h2, jsOr_of_falsy h]

theorem buildParameterResult_defaults_to_success_witness :
    jsTruthyOpt (jsField (Json.obj [("parameters", .arr [.str "p"]), ("body", .num 0)]) "status")
      = false ∧
    (buildParameterResult (Json.obj [("parameters", .arr [.str "p"]), ("body", .num 0)])).status
      = .str "SUCCESS" ∧
    (buildParameterResult (Json.obj [("parameters", .arr [.str "p"]), ("body", .num 0)])).body
      = .null :=
  ⟨rfl,
   (buildParameterResult_defaults_to_success
     (Json.obj [("parameters", .arr [.str "p"]), ("body", .num 0)]) rfl).1,
   (buildParameterResult_defaults_to_success
     (Json.obj [("parameters", .arr [.str "p"]), ("body", .num 0)]) rfl).2.2.1⟩

/-- C4: for a completed HTTP call, success holds exactly for a 2xx status, and
any other status yields a failed result whose `error` is the
`"HTTP <status>: <serialized body>"` string. -/
theorem buildExecutionResult_success_iff (step : ApiCallPlan)
    (parameterResult : ParameterGenerationResult) (httpResult : HttpResult) :
    ((buildExecutionResult step parameterResult httpResult).success = true ↔
      (200 ≤ httpResult.status ∧ httpResult.status ≤ 299)) ∧
    (¬(200 ≤ httpResult.status ∧ httpResult.status ≤ 299) →
      (buildExecutionResult step parameterResult httpResult).success = false ∧
      (buildExecutionResult step parameterResult httpResult).error =
        some (.str ("HTTP " ++ toString httpResult.status ++ ": "
          ++ stringifyJson httpResult.response))) := by
  constructor
  · simp [buildExecutionResult, HTTP_STATUS_SUCCESS_MIN, HTTP_STATUS_SUCCESS_MAX]
  · intro h
    have hs : (decide (HTTP_STATUS_SUCCESS_MIN ≤ httpResult.status)
        && decide (httpResult.status ≤ HTTP_STATUS_SUCCESS_MAX)) = false := by
      simp [HTTP_STATUS_SUCCESS_MIN, HTTP_STATUS_SUCCESS_MAX]
      omega
    simp [buildExecutionResult, hs]

theorem buildExecutionResult_success_iff_witness :
    ¬((200 : Int) ≤ 500 ∧ (500 : Int) ≤ 299) ∧
    (buildExecutionResult stepUsers
      { status := .str "SUCCESS", parameters := .arr [], body := .null, message := none }
      ⟨.str "boom", 500⟩).success = false ∧
    (buildExecutionResult stepUsers
      { status := .str "SUCCESS", parameters := .arr [], body := .null, message := none }
      ⟨.str "boom", 500⟩).error = some (.str "HTTP 500: \"boom\"") := by
  refine ⟨by omega, ?_, ?_⟩
  · exact ((buildExecutionResult_success_iff stepUsers
      { status := .str "SUCCESS", parameters := .arr [], body := .null, message := none }
      ⟨.str "boom", 500⟩).2 (by decide)).1
  · exact ((buildExecutionResult_success_iff stepUsers
      { status := .str "SUCCESS", parameters := .arr [], body := .null, message := none }
      ⟨.str "boom", 500⟩).2 (by decide)).2

/-- C3: a generation result with a non-`SUCCESS` status short-circuits the
step to a failed result with the mapped error type carrying the generator's
message (or its default), and no HTTP request is dispatched. -/
theorem executeStep_short_circuits_failed_generation (fetchO : String → Option Json)
    (aiO : AiOracle) (httpO : HttpRequest → HttpOutcome) (step : ApiCallPlan)
    (previousResults : List ExecutionResult) (userPrompt : String)
    (pr : ParameterGenerationResult)
    (hgen : generateParametersForStep fetchO aiO step previousResults userPrompt = pr) :
    (pr.status = .str "INSUFFICIENT_DATA" →
      executeStep fetchO aiO httpO step previousResults userPrompt =
        (.ok (createErrorResult step .INSUFFICIENT_DATA
          (jsOr pr.message (.str "Insufficient data"))), [])) ∧
    (pr.status = .str "INSUFFICIENT_SCHEMA" →
      executeStep fetchO aiO httpO step previousResults userPrompt =
        (.ok (createErrorResult step .SWAGGER_ERROR
          (jsOr pr.message (.str "Insufficient schema"))), [])) ∧
    (pr.status = .str "ERROR" →
      executeStep fetchO aiO httpO step previousResults userPrompt =
        (.ok (createErrorResult step .PARAMETER_GENERATION_ERROR
          (jsOr pr.message (.str "Parameter generation error"))), [])) ∧
    (∀ (errorType : ExecutionErrorType) (message : Json),
        (createErrorResult step errorType message).success = false ∧
        (createErrorResult step errorType message).errorType = some errorType ∧
        (createErrorResult step errorType message).error = some message) := by
  refine ⟨?_, ?_, ?_, ?_⟩
  · intro hs
    simp [executeStep, hgen, validateParameterResult, hs, isStrVal]
  · intro hs
    simp [executeStep, hgen, validateParameterResult, hs, isStrVal]
  · intro hs
    simp [executeStep, hgen, validateParameterResult, hs, isStrVal]
  · intro errorType message
    exact ⟨rfl, rfl, rfl⟩


theorem executeStep_short_circuits_failed_generation_witness :
    (generateParametersForStep fetchUsers aiInsufficientData stepUsers [] "p").status
      = .str "INSUFFICIENT_DATA" ∧
    executeStep fetchUsers aiInsufficientData http500 stepUsers [] "p" =
      (.ok (createErrorResult stepUsers .INSUFFICIENT_DATA (.str "missing X")), []) :=
  ⟨rfl, by
    exact (executeStep_short_circuits_failed_generation fetchUsers aiInsufficientData http500
      stepUsers [] "p"
      (generateParametersForStep fetchUsers aiInsufficientData stepUsers [] "p") rfl).1 rfl⟩

/-- C2 counterexample: a missing path placeholder yields `UNKNOWN_ERROR`
(via `executePlan`'s catch), not `VALIDATION_ERROR`. -/
theorem executePlan_missing_path_param_counterexample :
    ((executePlan fetchUsers aiSuccessNoParams http500 [stepUsers] "p").1.map
      (fun r => r.errorType) = [some .UNKNOWN_ERROR]) ∧
    ¬((executePlan fetchUsers aiSuccessNoParams http500 [stepUsers] "p").1.map
      (fun r => r.errorType) = [some .VALIDATION_ERROR]) ∧
    (executePlan fetchUsers aiSuccessNoParams http500 [stepUsers] "p").2 = [] :=
  ⟨rfl, by decide, rfl⟩

/-- C2 amended: the step throws before any HTTP call, and the plan runner's
catch records an `UNKNOWN_ERROR` result and stops. -/
theorem executeStep_missing_path_param (fetchO : String → Option Json) (aiO : AiOracle)
    (httpO : HttpRequest → HttpOutcome) (step : ApiCallPlan)
    (previousResults : List ExecutionResult) (userPrompt : String)
    (ps : List Json) (nm : String)
    (hps : (generateParametersForStep fetchO aiO step previousResults userPrompt).parameters
      = .arr ps)
    (hval : validateParameterResult
      (generateParametersForStep fetchO aiO step previousResults userPrompt) step = none)
    (hph : nm ∈ extractPlaceholders step.endpoint.data)
    (hnm : ∀ p ∈ ps, isStrVal (jsField p "location") "path" = true →
      isStrVal (jsField p "name") nm = false) :
    (executeStep fetchO aiO httpO step previousResults userPrompt =
      (.error ("Missing required path parameters: " ++ String.intercalate ", "
        (validatePathParameters step.endpoint
          (ps.filter (fun p => isStrVal (jsField p "location") "path")))), [])) ∧
    (∀ restPlan, executePlanGo fetchO aiO httpO userPrompt (step :: restPlan) previousResults =
      (previousResults ++ [catchStepResult step
        ("Missing required path parameters: " ++ String.intercalate ", "
          (validatePathParameters step.endpoint
            (ps.filter (fun p => isStrVal (jsField p "location") "path"))))], [])) ∧
    (∀ m, (catchStepResult step m).success = false ∧
      (catchStepResult step m).errorType = some .UNKNOWN_ERROR ∧
      (catchStepResult step m).error = some (.str ("Ошибка выполнения: " ++ m))) := by
  have hmem : nm ∈ validatePathParameters step.endpoint
      (ps.filter (fun p => isStrVal (jsField p "location") "path")) := by
    unfold validatePathParameters
    refine List.mem_filter.mpr ⟨hph, ?_⟩
    simp only [Bool.not_eq_true']
    rw [List.any_eq_false]
    intro p hp
    have hp' := List.mem_filter.mp hp
    simp [hnm p hp'.1 hp'.2]
  have hne : validatePathParameters step.endpoint
      (ps.filter (fun p => isStrVal (jsField p "location") "path")) ≠ [] :=
    List.ne_nil_of_mem hmem
  have hstep : executeStep fetchO aiO httpO step previousResults userPrompt =
      (.error ("Missing required path parameters: " ++ String.intercalate ", "
        (validatePathParameters step.endpoint
          (ps.filter (fun p => isStrVal (jsField p "location") "path")))), []) := by
    simp only [executeStep]
    rw [hval]
    simp only [hps, makeHttpRequest]
    rw [if_pos hne]
  refine ⟨hstep, ?_, ?_⟩
  · intro restPlan
    simp only [executePlanGo]
    rw [hstep]
  · intro m
    exact ⟨rfl, rfl, rfl⟩

theorem executeStep_missing_path_param_witness :
    "id" ∈ extractPlaceholders stepUsers.endpoint.data ∧
    executeStep fetchUsers aiSuccessNoParams http500 stepUsers [] "p" =
      (.error "Missing required path parameters: id", []) ∧
    executePlanGo fetchUsers aiSuccessNoParams http500 "p" [stepUsers] [] =
      ([catchStepResult stepUsers "Missing required path parameters: id"], []) := by
  have h := executeStep_missing_path_param fetchUsers aiSuccessNoParams http500 stepUsers [] "p"
    [] "id" rfl rfl (by decide) (by simp)
  exact ⟨by decide, h.1, h.2.1 []⟩


/-- C8 counterexample: with an unmatched first token the single produced step
is numbered 2, so the steps are not `1..N`. -/
theorem planEndpointSequence_steps_counterexample :
    (planEndpointSequence "1. bogus\n2. ep1" [epCand]).map (fun p => p.step) = [2] ∧
    ¬((planEndpointSequence "1. bogus\n2. ep1" [epCand]).map (fun p => p.step) =
      List.range' 1 (planEndpointSequence "1. bogus\n2. ep1" [epCand]).length) :=
  ⟨rfl, by decide⟩

theorem planSequenceLoop_facts (allEndpoints : List EndpointCand) :
    ∀ (toks : List String) (i : Nat),
    (∀ p ∈ planSequenceLoop allEndpoints toks i,
        i + 1 ≤ p.step ∧ p.step ≤ i + toks.length ∧
        toks.get? (p.step - 1 - i) = some p.endpointId) ∧
    List.Chain' (· < ·) ((planSequenceLoop allEndpoints toks i).map (fun p => p.step)) ∧
    ((∀ tok ∈ toks, ∃ e, e ∈ allEndpoints ∧ e.id = tok) →
      (planSequenceLoop allEndpoints toks i).map (fun p => p.step)
        = List.range' (i + 1) toks.length) := by
  intro toks
  induction toks with
  | nil =>
    intro i
    exact ⟨by simp [planSequenceLoop], by simp [planSequenceLoop], by simp [planSequenceLoop]⟩
  | cons tok rest ih =>
    intro i
    obtain ⟨iha, ihb, ihc⟩ := ih (i + 1)
    cases hfind : allEndpoints.find? (fun e => e.id = tok) with
    | none =>
      refine ⟨?_, ?_, ?_⟩
      · intro p hp
        simp only [planSequenceLoop, hfind] at hp
        obtain ⟨h1, h2, h3⟩ := iha p hp
        refine ⟨by omega, ?_, ?_⟩
        · simp only [List.length_cons]
          omega
        · have hk : p.step - 1 - i = (p.step - 1 - (i + 1)) + 1 := by omega
          rw [hk]
          simpa using h3
      · simp only [planSequenceLoop, hfind]
        exact ihb
      · intro hall
        exfalso
        obtain ⟨e, he, heid⟩ := hall tok (by simp)
        have := List.find?_eq_none.mp hfind e he
        simp [heid] at this
    | some e =>
      have heid : e.id = tok := by
        have := List.find?_some hfind
        simpa using this
      refine ⟨?_, ?_, ?_⟩
      · intro p hp
        simp only [planSequenceLoop, hfind, List.mem_cons] at hp
        cases hp with
        | inl hp =>
          subst hp
          refine ⟨by simp, by simp, ?_⟩
          have hz : i + 1 - 1 - i = 0 := by omega
          simp only [hz]
          simp [heid.symm]
        | inr hp =>
          obtain ⟨h1, h2, h3⟩ := iha p hp
          refine ⟨by omega, ?_, ?_⟩
          · simp only [List.length_cons]
            omega
          · have hk : p.step - 1 - i = (p.step - 1 - (i + 1)) + 1 := by omega
            rw [hk]
            simpa using h3
      · simp only [planSequenceLoop, hfind, List.map_cons]
        rw [List.chain'_cons']
        refine ⟨?_, ihb⟩
        intro b hb
        cases hloop : (planSequenceLoop allEndpoints rest (i + 1)).map (fun p => p.step) with
        | nil => rw [hloop] at hb; simp at hb
        | cons b0 bs =>
          rw [hloop] at hb
          simp at hb
          subst hb
          have hb0 : b0 ∈ (planSequenceLoop allEndpoints rest (i + 1)).map (fun p => p.step) := by
            rw [hloop]; simp
          obtain ⟨q, hq, hqe⟩ := List.mem_map.mp hb0
          have hstep1 := (iha q hq).1
          have hb0' : q.step = b0 := hqe
          show i + 1 < b0
          omega
      · intro hall
        simp only [planSequenceLoop, hfind, List.map_cons]
        have hrest := ihc (fun t ht => hall t (by simp [ht]))
        rw [hrest]
        rfl

/-- C8 amended: each produced step number is the 1-based position of its
matched token among all stage-3 tokens (dropped tokens included), so the
numbers are strictly increasing but need not be contiguous; they are exactly
`1..N` when every token matches a known endpoint id. -/
theorem planEndpointSequence_step_numbering (responseContent : String)
    (allEndpoints : List EndpointCand) :
    (∀ p ∈ planEndpointSequence responseContent allEndpoints,
        1 ≤ p.step ∧ p.step ≤ (endpointIdTokens responseContent).length ∧
        (endpointIdTokens responseContent).get? (p.step - 1) = some p.endpointId) ∧
    List.Chain' (· < ·)
      ((planEndpointSequence responseContent allEndpoints).map (fun p => p.step)) ∧
    ((∀ tok ∈ endpointIdTokens responseContent, ∃ e, e ∈ allEndpoints ∧ e.id = tok) →
      (planEndpointSequence responseContent allEndpoints).map (fun p => p.step)
        = List.range' 1 (endpointIdTokens responseContent).length) := by
  have h := planSequenceLoop_facts allEndpoints (endpointIdTokens responseContent) 0
  simpa using h

theorem planEndpointSequence_step_numbering_witness :
    (∀ tok ∈ endpointIdTokens "1. ep1\n2. ep1", ∃ e, e ∈ [epCand] ∧ e.id = tok) ∧
    (planEndpointSequence "1. ep1\n2. ep1" [epCand]).map (fun p => p.step)
      = List.range' 1 (endpointIdTokens "1. ep1\n2. ep1").length :=
  ⟨by decide, (planEndpointSequence_step_numbering "1. ep1\n2. ep1" [epCand]).2.2 (by decide)⟩


/-- C6 counterexample: the lookup does return `null`, but the step's recorded
`errorType` is `PARAMETER_GENERATION_ERROR`, not `SWAGGER_ERROR`. -/
theorem endpoint_not_found_error_type_counterexample :
    getEndpointSchemaCore docEmpty stepUsers.endpoint stepUsers.method = none ∧
    ((executePlan (fun _ => some docEmpty) aiSuccessNoParams http500 [stepUsers] "p").1.map
      (fun r => (r.success, r.errorType))) = [(false, some .PARAMETER_GENERATION_ERROR)] ∧
    ¬(((executePlan (fun _ => some docEmpty) aiSuccessNoParams http500 [stepUsers] "p").1.map
      (fun r => r.errorType)) = [some .SWAGGER_ERROR]) ∧
    (executePlan (fun _ => some docEmpty) aiSuccessNoParams http500 [stepUsers] "p").2 = [] :=
  ⟨rfl, rfl, by decide, rfl⟩

/-- C6 amended: a missing operation yields `null` from the lookup and fails
the step with no HTTP call, but the thrown `SWAGGER_ERROR` is swallowed by
`generateParametersForStep`'s catch and re-surfaces as an `ERROR` generation
status, so the recorded `errorType` is `PARAMETER_GENERATION_ERROR` with the
not-found message behind the parse-error prefix. -/
theorem executeStep_endpoint_not_found (fetchO : String → Option Json) (aiO : AiOracle)
    (httpO : HttpRequest → HttpOutcome) (step : ApiCallPlan)
    (previousResults : List ExecutionResult) (userPrompt : String) (doc : Json)
    (hurl : ¬(step.swaggerUrl = ""))
    (hfetch : fetchO step.swaggerUrl = some doc)
    (hnotfound : getEndpointSchemaCore doc step.endpoint step.method = none) :
    generateParametersForStep fetchO aiO step previousResults userPrompt =
      createParameterError ("Endpoint " ++ step.method ++ " " ++ step.endpoint
        ++ " not found in Swagger") ∧
    executeStep fetchO aiO httpO step previousResults userPrompt =
      (.ok (createErrorResult step .PARAMETER_GENERATION_ERROR
        (.str ("Ошибка парсинга ответа ИИ: Endpoint " ++ step.method ++ " " ++ step.endpoint
          ++ " not found in Swagger"))), []) := by
  have hgen : generateParametersForStep fetchO aiO step previousResults userPrompt =
      createParameterError ("Endpoint " ++ step.method ++ " " ++ step.endpoint
        ++ " not found in Swagger") := by
    simp only [generateParametersForStep, getSwaggerSchema, getSwaggerUrlForStep,
      getEndpointSchema, fetchSwaggerJson, hfetch, if_neg hurl, hnotfound, Except.map]
  have hmsgne : ("Ошибка парсинга ответа ИИ: " ++ ("Endpoint " ++ step.method ++ " "
      ++ step.endpoint ++ " not found in Swagger")) ≠ "" := by
    intro hc
    have hlen := congrArg String.length hc
    rw [String.length_append] at hlen
    have h26 : ("Ошибка парсинга ответа ИИ: ").length = 27 := by decide
    rw [h26] at hlen
    have h0 : ("" : String).length = 0 := rfl
    rw [h0] at hlen
    omega
  refine ⟨hgen, ?_⟩
  simp only [executeStep, hgen, validateParameterResult, createParameterError, isStrVal]
  have hjsor : jsOr (some (.str ("Ошибка парсинга ответа ИИ: " ++ ("Endpoint " ++ step.method
      ++ " " ++ step.endpoint ++ " not found in Swagger")))) (.str "Parameter generation error")
      = .str ("Ошибка парсинга ответа ИИ: " ++ ("Endpoint " ++ step.method ++ " "
        ++ step.endpoint ++ " not found in Swagger")) := by
    simp [jsOr, jsTruthy, bne_iff_ne, hmsgne]
  simp only [hjsor]
  norm_num
  constructor

theorem executeStep_endpoint_not_found_witness :
    getEndpointSchemaCore docEmpty stepUsers.endpoint stepUsers.method = none ∧
    executeStep (fun _ => some docEmpty) aiSuccessNoParams http500 stepUsers [] "p" =
      (.ok (createErrorResult stepUsers .PARAMETER_GENERATION_ERROR
        (.str "Ошибка парсинга ответа ИИ: Endpoint GET /users/\x7bid\x7d not found in Swagger")),
       []) :=
  ⟨rfl,
   (executeStep_endpoint_not_found (fun _ => some docEmpty) aiSuccessNoParams http500
      stepUsers [] "p" docEmpty (by decide) rfl rfl).2⟩



/-- C5 counterexample: a step failing by HTTP status range records no
`errorType` at all (in particular not `HTTP_REQUEST_ERROR`). -/
theorem http_failure_has_no_error_type_counterexample :
    ((executePlan (fun _ => some docPlain) aiSuccessNoParams http500 [stepPlain] "p").1.map
      (fun r => (r.success, r.errorType))) = [(false, none)] ∧
    ¬(∀ r ∈ (executePlan (fun _ => some docPlain) aiSuccessNoParams http500 [stepPlain] "p").1,
        r.success = false → r.errorType.isSome = true) :=
  ⟨rfl, by decide⟩

theorem validateParameterResult_shape (pr : ParameterGenerationResult) (step : ApiCallPlan)
    (v : ExecutionResult) (h : validateParameterResult pr step = some v) :
    v = createErrorResult step .INSUFFICIENT_DATA (jsOr pr.message (.str "Insufficient data")) ∨
    v = createErrorResult step .SWAGGER_ERROR (jsOr pr.message (.str "Insufficient schema")) ∨
    v = createErrorResult step .PARAMETER_GENERATION_ERROR
      (jsOr pr.message (.str "Parameter generation error")) := by
  unfold validateParameterResult at h
  split_ifs at h with h1 h2 h3
  · injection h with h
    exact Or.inl h.symm
  · injection h with h
    exact Or.inr (Or.inl h.symm)
  · injection h with h
    exact Or.inr (Or.inr h.symm)

theorem executeStep_ok_shape (fetchO : String → Option Json) (aiO : AiOracle)
    (httpO : HttpRequest → HttpOutcome) (step : ApiCallPlan)
    (previousResults : List ExecutionResult) (userPrompt : String)
    (r : ExecutionResult) (log : List HttpRequest)
    (h : executeStep fetchO aiO httpO step previousResults userPrompt = (.ok r, log)) :
    (∃ msg, r = createErrorResult step .INSUFFICIENT_DATA msg ∨
            r = createErrorResult step .SWAGGER_ERROR msg ∨
            r = createErrorResult step .PARAMETER_GENERATION_ERROR msg) ∨
    (∃ httpResult, r = buildExecutionResult step
        (generateParametersForStep fetchO aiO step previousResults userPrompt) httpResult) := by
  simp only [executeStep] at h
  cases hv : validateParameterResult
      (generateParametersForStep fetchO aiO step previousResults userPrompt) step with
  | some v =>
    rw [hv] at h
    simp only [Prod.mk.injEq] at h
    have hrv : r = v := by
      have := h.1
      injection this with hh
      exact hh.symm
    subst hrv
    rcases validateParameterResult_shape _ _ _ hv with h1 | h1 | h1
    · exact Or.inl ⟨_, Or.inl h1⟩
    · exact Or.inl ⟨_, Or.inr (Or.inl h1)⟩
    · exact Or.inl ⟨_, Or.inr (Or.inr h1)⟩
  | none =>
    rw [hv] at h
    cases hm : makeHttpRequest httpO step.baseUrl step.endpoint step.method
        (generateParametersForStep fetchO aiO step previousResults userPrompt).parameters
        (generateParametersForStep fetchO aiO step previousResults userPrompt).body with
    | mk er lg =>
      rw [hm] at h
      cases er with
      | ok httpResult =>
        simp only [Prod.mk.injEq] at h
        have := h.1
        injection this with hh
        exact Or.inr ⟨httpResult, hh.symm⟩
      | error e =>
        simp only [Prod.mk.injEq] at h
        exact absurd h.1 (by simp)

theorem buildExecutionResult_failed_fields (step : ApiCallPlan)
    (pr : ParameterGenerationResult) (httpResult : HttpResult)
    (h : (buildExecutionResult step pr httpResult).success = false) :
    (buildExecutionResult step pr httpResult).errorType = none ∧
    (buildExecutionResult step pr httpResult).error = some (.str ("HTTP "
      ++ toString (buildExecutionResult step pr httpResult).responseStatus ++ ": "
      ++ stringifyJson (buildExecutionResult step pr httpResult).response)) := by
  refine ⟨rfl, ?_⟩
  simp only [buildExecutionResult] at h ⊢
  simp [h]


theorem executeStep_ok_failed_shape (fetchO : String → Option Json) (aiO : AiOracle)
    (httpO : HttpRequest → HttpOutcome) (step : ApiCallPlan)
    (previousResults : List ExecutionResult) (userPrompt : String)
    (r : ExecutionResult) (log : List HttpRequest)
    (h : executeStep fetchO aiO httpO step previousResults userPrompt = (.ok r, log))
    (hfail : r.success = false) : failedResultShape r := by
  rcases executeStep_ok_shape fetchO aiO httpO step previousResults userPrompt r log h with
    ⟨msg, h1 | h1 | h1⟩ | ⟨httpResult, h1⟩
  · subst h1
    exact ⟨rfl, Or.inl rfl⟩
  · subst h1
    exact ⟨rfl, Or.inr (Or.inl rfl)⟩
  · subst h1
    exact ⟨rfl, Or.inr (Or.inr (Or.inl rfl))⟩
  · subst h1
    obtain ⟨het, herr⟩ := buildExecutionResult_failed_fields step _ httpResult hfail
    refine ⟨by rw [herr]; rfl, Or.inr (Or.inr (Or.inr (Or.inr ⟨het, herr⟩)))⟩

theorem catchStepResult_failed_shape (step : ApiCallPlan) (e : String) :
    failedResultShape (catchStepResult step e) :=
  ⟨rfl, Or.inr (Or.inr (Or.inr (Or.inl rfl)))⟩

theorem executePlanGo_failed_shape (fetchO : String → Option Json) (aiO : AiOracle)
    (httpO : HttpRequest → HttpOutcome) (userPrompt : String) :
    ∀ (plan : List ApiCallPlan) (acc : List ExecutionResult),
    (∀ r ∈ acc, r.success = false → failedResultShape r) →
    ∀ r ∈ (executePlanGo fetchO aiO httpO userPrompt plan acc).1,
      r.success = false → failedResultShape r := by
  intro plan
  induction plan with
  | nil =>
    intro acc hacc r hr
    simp only [executePlanGo] at hr
    exact hacc r hr
  | cons step restPlan ih =>
    intro acc hacc r hr
    simp only [executePlanGo] at hr
    cases hstep : executeStep fetchO aiO httpO step acc userPrompt with
    | mk er log =>
      rw [hstep] at hr
      cases er with
      | ok result =>
        simp only at hr
        cases hsucc : result.success with
        | true =>
          rw [hsucc] at hr
          simp only [if_pos] at hr
          have hacc' : ∀ r ∈ acc ++ [result], r.success = false → failedResultShape r := by
            intro r hr hf
            rcases List.mem_append.mp hr with hl | hl
            · exact hacc r hl hf
            · rw [List.mem_singleton.mp hl] at hf
              rw [hsucc] at hf
              exact absurd hf (by simp)
          have := ih (acc ++ [result]) hacc'
          cases hgo : executePlanGo fetchO aiO httpO userPrompt restPlan (acc ++ [result]) with
          | mk rs ls =>
            rw [hgo] at hr
            simp only at hr
            rw [hgo] at this
            exact this r hr
        | false =>
          rw [hsucc] at hr
          simp only [Bool.false_eq_true, if_false] at hr
          rcases List.mem_append.mp hr with hl | hl
          · exact fun hf => hacc r hl hf
          · rw [List.mem_singleton.mp hl]
            intro hf
            exact executeStep_ok_failed_shape fetchO aiO httpO step acc userPrompt result log
              hstep hsucc
      | error e =>
        simp only at hr
        rcases List.mem_append.mp hr with hl | hl
        · exact fun hf => hacc r hl hf
        · rw [List.mem_singleton.mp hl]
          intro _
          exact catchStepResult_failed_shape step e

/-- C5 amended: every failed result of a run carries a present, human-readable
`error` message; its `errorType` is one of `INSUFFICIENT_DATA`, `SWAGGER_ERROR`,
`PARAMETER_GENERATION_ERROR`, `UNKNOWN_ERROR` — or is absent, exactly for
status-range failures, whose message is the `"HTTP <status>: <body>"` string
(`HTTP_REQUEST_ERROR` and `VALIDATION_ERROR` are never assigned). -/
theorem executePlan_failed_results_shape (fetchO : String → Option Json) (aiO : AiOracle)
    (httpO : HttpRequest → HttpOutcome) (plan : List ApiCallPlan) (userPrompt : String) :
    ∀ r ∈ (executePlan fetchO aiO httpO plan userPrompt).1,
      r.success = false → failedResultShape r :=
  executePlanGo_failed_shape fetchO aiO httpO userPrompt plan [] (by simp)

theorem executePlan_failed_results_shape_witness :
    ∃ r ∈ (executePlan (fun _ => some docPlain) aiSuccessNoParams http500 [stepPlain] "p").1,
      r.success = false ∧ failedResultShape r := by
  have hmem : buildExecutionResult stepPlain
      (generateParametersForStep (fun _ => some docPlain) aiSuccessNoParams stepPlain [] "p")
      ⟨.str "boom", 500⟩
      ∈ (executePlan (fun _ => some docPlain) aiSuccessNoParams http500 [stepPlain] "p").1 := by
    rw [show (executePlan (fun _ => some docPlain) aiSuccessNoParams http500 [stepPlain] "p").1
        = [buildExecutionResult stepPlain
            (generateParametersForStep (fun _ => some docPlain) aiSuccessNoParams stepPlain [] "p")
            ⟨.str "boom", 500⟩] from rfl]
    exact List.mem_singleton_self _
  exact ⟨_, hmem, rfl,
    executePlan_failed_results_shape (fun _ => some docPlain) aiSuccessNoParams http500
      [stepPlain] "p" _ hmem rfl⟩

theorem executeStep_ok_fields (fetchO : String → Option Json) (aiO : AiOracle)
    (httpO : HttpRequest → HttpOutcome) (step : ApiCallPlan)
    (previousResults : List ExecutionResult) (userPrompt : String)
    (r : ExecutionResult) (log : List HttpRequest)
    (h : executeStep fetchO aiO httpO step previousResults userPrompt = (.ok r, log)) :
    r.step = step.step ∧ r.endpoint = step.endpoint ∧ r.method = step.method := by
  rcases executeStep_ok_shape fetchO aiO httpO step previousResults userPrompt r log h with
    ⟨msg, h1 | h1 | h1⟩ | ⟨httpResult, h1⟩ <;> subst h1 <;> exact ⟨rfl, rfl, rfl⟩

theorem executePlanGo_spec (fetchO : String → Option Json) (aiO : AiOracle)
    (httpO : HttpRequest → HttpOutcome) (userPrompt : String) :
    ∀ (plan : List ApiCallPlan) (acc : List ExecutionResult),
    ∃ tail, (executePlanGo fetchO aiO httpO userPrompt plan acc).1 = acc ++ tail ∧
      tail.length ≤ plan.length ∧
      (∀ i (hi : i < tail.length) (hp : i < plan.length),
        (tail.get ⟨i, hi⟩).step = (plan.get ⟨i, hp⟩).step ∧
        (tail.get ⟨i, hi⟩).endpoint = (plan.get ⟨i, hp⟩).endpoint ∧
        (tail.get ⟨i, hi⟩).method = (plan.get ⟨i, hp⟩).method) ∧
      (∀ i (h2 : i + 1 < tail.length), (tail.get ⟨i, Nat.lt_of_succ_lt h2⟩).success = true) ∧
      ((∀ i (hi : i < tail.length), (tail.get ⟨i, hi⟩).success = true) →
        tail.length = plan.length) := by
  intro plan
  induction plan with
  | nil =>
    intro acc
    refine ⟨[], by simp [executePlanGo], by simp, ?_, ?_, ?_⟩
    · intro i hi
      simp at hi
    · intro i h2
      simp at h2
    · intro _
      rfl
  | cons step restPlan ih =>
    intro acc
    cases hstep : executeStep fetchO aiO httpO step acc userPrompt with
    | mk er log =>
      cases er with
      | ok result =>
        cases hsucc : result.success with
        | true =>
          obtain ⟨tail', hta, htb, htc, htd, hte⟩ := ih (acc ++ [result])
          refine ⟨result :: tail', ?_, by simp [htb, Nat.succ_le_succ], ?_, ?_, ?_⟩
          · simp only [executePlanGo]
            rw [hstep]
            simp only [hsucc, if_pos]
            cases hgo : executePlanGo fetchO aiO httpO userPrompt restPlan (acc ++ [result]) with
            | mk rs ls =>
              rw [hgo] at hta
              simpa using hta
          · intro i hi hp
            cases i with
            | zero =>
              obtain ⟨f1, f2, f3⟩ := executeStep_ok_fields fetchO aiO httpO step acc userPrompt
                result log hstep
              exact ⟨f1, f2, f3⟩
            | succ i =>
              exact htc i (Nat.lt_of_succ_lt_succ hi) (Nat.lt_of_succ_lt_succ hp)
          · intro i h2
            cases i with
            | zero => exact hsucc
            | succ i => exact htd i (Nat.lt_of_succ_lt_succ h2)
          · intro hall
            have : tail'.length = restPlan.length := by
              apply hte
              intro i hi
              exact hall (i + 1) (Nat.succ_lt_succ hi)
            simp [this]
        | false =>
          refine ⟨[result], ?_, by simp, ?_, ?_, ?_⟩
          · simp only [executePlanGo]
            rw [hstep]
            simp [hsucc]
          · intro i hi hp
            have hi0 : i = 0 := by simp at hi; omega
            subst hi0
            obtain ⟨f1, f2, f3⟩ := executeStep_ok_fields fetchO aiO httpO step acc userPrompt
              result log hstep
            exact ⟨f1, f2, f3⟩
          · intro i h2
            simp at h2
          · intro hall
            have := hall 0 (by simp)
            simp only [List.get] at this
            rw [hsucc] at this
            exact absurd this (by simp)
      | error e =>
        refine ⟨[catchStepResult step e], ?_, by simp, ?_, ?_, ?_⟩
        · simp only [executePlanGo]
          rw [hstep]
        · intro i hi hp
          have hi0 : i = 0 := by simp at hi; omega
          subst hi0
          exact ⟨rfl, rfl, rfl⟩
        · intro i h2
          simp at h2
        · intro hall
          have := hall 0 (by simp)
          simp only [List.get] at this
          exact absurd this (by simp [catchStepResult])

/-- C1: the run's result list is a step-order prefix of the plan — at most as
long as the plan, the `i`-th result carries the `i`-th plan step's identity (no
gaps, no reordering), only the last result may be failed (iteration stops at
the first failure), and a run with no failed result covers the whole plan. -/
theorem executePlan_results_follow_plan (fetchO : String → Option Json) (aiO : AiOracle)
    (httpO : HttpRequest → HttpOutcome) (plan : List ApiCallPlan) (userPrompt : String) :
    (executePlan fetchO aiO httpO plan userPrompt).1.length ≤ plan.length ∧
    (∀ i (hi : i < (executePlan fetchO aiO httpO plan userPrompt).1.length)
        (hp : i < plan.length),
      ((executePlan fetchO aiO httpO plan userPrompt).1.get ⟨i, hi⟩).step
          = (plan.get ⟨i, hp⟩).step ∧
      ((executePlan fetchO aiO httpO plan userPrompt).1.get ⟨i, hi⟩).endpoint
          = (plan.get ⟨i, hp⟩).endpoint ∧
      ((executePlan fetchO aiO httpO plan userPrompt).1.get ⟨i, hi⟩).method
          = (plan.get ⟨i, hp⟩).method) ∧
    (∀ i (h2 : i + 1 < (executePlan fetchO aiO httpO plan userPrompt).1.length),
      ((executePlan fetchO aiO httpO plan userPrompt).1.get
        ⟨i, Nat.lt_of_succ_lt h2⟩).success = true) ∧
    ((∀ i (hi : i < (executePlan fetchO aiO httpO plan userPrompt).1.length),
        ((executePlan fetchO aiO httpO plan userPrompt).1.get ⟨i, hi⟩).success = true) →
      (executePlan fetchO aiO httpO plan userPrompt).1.length = plan.length) := by
  obtain ⟨tail, hta, htb, htc, htd, hte⟩ := executePlanGo_spec fetchO aiO httpO userPrompt plan []
  have hrw : (executePlan fetchO aiO httpO plan userPrompt).1 = tail := by
    simpa [executePlan] using hta
  rw [hrw]
  exact ⟨htb, htc, htd, hte⟩





theorem executePlan_results_follow_plan_witness :
    (executePlan (fun _ => some docTwo) aiSuccessNoParams httpTwo [stepA, stepB] "p").1.length
      = 2 ∧
    ((executePlan (fun _ => some docTwo) aiSuccessNoParams httpTwo [stepA, stepB] "p").1.get
      ⟨0, by decide⟩).success = true ∧
    ((executePlan (fun _ => some docTwo) aiSuccessNoParams httpTwo [stepA, stepB] "p").1.get
      ⟨0, by decide⟩).step = stepA.step :=
  ⟨rfl,
   (executePlan_results_follow_plan (fun _ => some docTwo) aiSuccessNoParams httpTwo
     [stepA, stepB] "p").2.2.1 0 (by decide),
   ((executePlan_results_follow_plan (fun _ => some docTwo) aiSuccessNoParams httpTwo
     [stepA, stepB] "p").2.1 0 (by decide) (by decide)).1⟩




theorem cyc_resolution_loops : ∀ fuel,
    getFieldTypeF fuel (some cycDoc) cycField = none ∧
    formatNestedObjectF fuel (some cycDoc) cycSchemaA = none ∧
    formatNestedFieldsF fuel (some cycDoc) (.arr []) [("self", cycField)] = none := by
  intro fuel
  induction fuel with
  | zero => exact ⟨rfl, rfl, rfl⟩
  | succ fuel ih =>
    obtain ⟨ih1, ih2, ih3⟩ := ih
    refine ⟨?_, ?_, ?_⟩
    · have hstep : getFieldTypeF (fuel + 1) (some cycDoc) cycField
          = formatNestedObjectF fuel (some cycDoc) cycSchemaA := rfl
      rw [hstep, ih2]
    · show (match formatNestedFieldsF fuel (some cycDoc) (.arr []) [("self", cycField)] with
        | some body => some ("object \x7b\n" ++ body ++ "\x7d")
        | none => none) = none
      rw [ih3]
    · show (match getFieldTypeF fuel (some cycDoc) cycField with
        | none => none
        | some fieldType =>
          match formatNestedFieldsF fuel (some cycDoc) (.arr []) [] with
          | none => none
          | some restText =>
            some ("  " ++ "self"
              ++ (if jsIncludesStr (.arr []) "self" then " (ОБЯЗАТЕЛЬНО)" else " (опционально)")
              ++ ": " ++ fieldType ++ fieldSuffix cycField ++ "\n" ++ restText)) = none
      rw [ih1]

/-- C7 counterexample: on a document whose schema references form a cycle,
field-type resolution never completes, for any recursion budget. -/
theorem getFieldType_cyclic_counterexample :
    ¬ ∃ fuel, (getFieldTypeF fuel (some cycDoc) cycField).isSome = true := by
  rintro ⟨fuel, hf⟩
  rw [(cyc_resolution_loops fuel).1] at hf
  exact Bool.noConfusion hf

/-- C7 amended: there is no cycle protection — a reference cycle makes
resolution non-terminating for every fuel — while a reference that fails to
resolve does stop immediately and surfaces the `object (Name)` marker. -/
theorem getFieldType_cycles_and_markers :
    (∀ fuel, getFieldTypeF fuel (some cycDoc) cycField = none) ∧
    (∀ (doc : Json) (ref : String) (fuel : Nat), ref ≠ "" →
      resolveSchemaRef ref (some doc) = .obj [("$ref", .str ref)] →
      getFieldTypeF (fuel + 1) (some doc) (.obj [("$ref", .str ref)])
        = some ("object (" ++ lastSegment ref ++ ")")) := by
  constructor
  · intro fuel
    exact (cyc_resolution_loops fuel).1
  · intro doc ref fuel href hres
    simp only [getFieldTypeF, jsField, List.foldl, jsTruthyOpt, jsTruthy]
    simp [hres, href, jsField, jsTruthyOpt, jsTruthy, bne_iff_ne]


theorem getFieldType_cycles_and_markers_witness :
    ("#/components/schemas/C" ≠ "") ∧
    resolveSchemaRef "#/components/schemas/C" (some okDoc)
      = .obj [("$ref", .str "#/components/schemas/C")] ∧
    getFieldTypeF 5 (some okDoc) (.obj [("$ref", .str "#/components/schemas/C")])
      = some "object (C)" :=
  ⟨by decide, rfl,
   getFieldType_cycles_and_markers.2 okDoc "#/components/schemas/C" 4 (by decide) rfl⟩

/-! C9 machinery -/







theorem extractLoop_of_no_fence : ∀ cs, hasTripleTick cs = false → extractLoop cs = none := by
  intro cs
  induction cs with
  | nil => intro _; rfl
  | cons c rest ih =>
    intro h
    simp only [hasTripleTick, Bool.or_eq_false_iff] at h
    simp only [extractLoop, h.1, Bool.false_eq_true, if_false]
    exact ih h.2

theorem extractJson_of_no_fence (t : String) (h : hasTripleTick t.data = false) :
    extractJsonFromResponse t = t := by
  unfold extractJsonFromResponse
  rw [extractLoop_of_no_fence t.data h]

theorem hasTripleTick_append_right : ∀ (pre u : List Char),
    hasTripleTick u = true → hasTripleTick (pre ++ u) = true := by
  intro pre u hu
  induction pre with
  | nil => exact hu
  | cons a pre ih =>
    have hr : hasTripleTick ((a :: pre) ++ u)
        = (startsWithTicks ((a :: pre) ++ u) || hasTripleTick (pre ++ u)) := rfl
    rw [hr, ih]
    simp

theorem hasTripleTick_of_suffix {u t : List Char} (h : u <:+ t)
    (hu : hasTripleTick u = true) : hasTripleTick t = true := by
  obtain ⟨pre, rfl⟩ := h
  exact hasTripleTick_append_right pre u hu

theorem dropWhile_isSuffix (p : Char → Bool) : ∀ (l : List Char), l.dropWhile p <:+ l := by
  intro l
  induction l with
  | nil => exact List.suffix_rfl
  | cons a l ih =>
    by_cases hpa : p a
    · rw [List.dropWhile_cons_of_pos hpa]
      exact ih.trans (List.suffix_cons a l)
    · rw [List.dropWhile_cons_of_neg hpa]

theorem dropWhile_append_of_ne_nil (p : Char → Bool) :
    ∀ (l₁ l₂ : List Char), l₁.dropWhile p ≠ [] →
      (l₁ ++ l₂).dropWhile p = l₁.dropWhile p ++ l₂ := by
  intro l₁
  induction l₁ with
  | nil => intro l₂ h; exact absurd rfl h
  | cons a l₁ ih =>
    intro l₂ h
    by_cases hpa : p a
    · rw [List.dropWhile_cons_of_pos hpa] at h
      rw [List.cons_append, List.dropWhile_cons_of_pos hpa, List.dropWhile_cons_of_pos hpa,
        ih l₂ h]
    · rw [List.cons_append, List.dropWhile_cons_of_neg hpa, List.dropWhile_cons_of_neg hpa,
        List.cons_append]

/-- After the content, a newline and a closing fence: the lazy group captures
exactly the content when the content has no fence and no trailing whitespace. -/
theorem takeContent_closes (t : List Char) (h3 : hasTripleTick t = false)
    (hlast : lastNotWs t = true) :
    ∀ ti, ti <:+ t → takeContent (ti ++ '\n' :: [tick, tick, tick]) = some ti := by
  intro ti
  induction ti with
  | nil => intro _; rfl
  | cons c rest ih =>
    intro hsuf
    have hrest : rest <:+ t := by
      obtain ⟨pre, hpre⟩ := hsuf
      exact ⟨pre ++ [c], by rw [← hpre]; simp⟩
    have hlastc : (c :: rest).getLast? = t.getLast? := by
      obtain ⟨pre, hpre⟩ := hsuf
      rw [← hpre]
      exact (List.getLast?_append_of_ne_nil pre (by simp)).symm
    -- the whitespace run at this position does not swallow everything
    have hne : (c :: rest).dropWhile isJsWs ≠ [] := by
      intro h0
      have hall := List.dropWhile_eq_nil_iff.mp h0
      have hmem := List.getLast_mem (l := c :: rest) (by simp)
      have hws := hall _ hmem
      have hsome : t.getLast? = some ((c :: rest).getLast (by simp)) := by
        rw [← hlastc]
        exact (List.getLast?_eq_getLast _ _)
      unfold lastNotWs at hlast
      rw [hsome] at hlast
      simp only [hws] at hlast
      exact Bool.noConfusion hlast
    have husuf : (c :: rest).dropWhile isJsWs <:+ t :=
      (dropWhile_isSuffix isJsWs (c :: rest)).trans hsuf
    have hguard : startsWithTicks (((c :: rest) ++ '\n' :: [tick, tick, tick]).dropWhile isJsWs)
        = false := by
      rw [dropWhile_append_of_ne_nil isJsWs (c :: rest) _ hne]
      cases hu : (c :: rest).dropWhile isJsWs with
      | nil => exact absurd hu hne
      | cons u0 u' =>
        cases u' with
        | nil =>
          simp only [List.cons_append, List.nil_append, startsWithTicks]
          have hnt : ('\n' = tick) = False := by simp [tick]
          simp [hnt]
        | cons u1 u'' =>
          cases u'' with
          | nil =>
            simp only [List.cons_append, List.nil_append, startsWithTicks]
            have hnt : ('\n' = tick) = False := by simp [tick]
            simp [hnt]
          | cons u2 u''' =>
            by_contra hcon
            rw [Bool.not_eq_false] at hcon
            have hsw : startsWithTicks (u0 :: u1 :: u2 :: u''') = true := hcon
            have htr : hasTripleTick (u0 :: u1 :: u2 :: u''') = true := by
              unfold hasTripleTick
              rw [hsw]
              simp
            rw [hu] at husuf
            exact absurd (hasTripleTick_of_suffix husuf htr) (by rw [h3]; simp)
    show takeContent (c :: (rest ++ '\n' :: [tick, tick, tick])) = some (c :: rest)
    unfold takeContent
    rw [show startsWithTicks
        (List.dropWhile isJsWs (c :: (rest ++ ['\n', tick, tick, tick]))) = false from hguard]
    rw [if_neg (by simp)]
    rw [ih hrest]
    rfl

theorem extractJson_wrapped (t : String) (h3 : hasTripleTick t.data = false)
    (hhead : headNotWs t.data = true) (hlast : lastNotWs t.data = true) :
    extractJsonFromResponse (wrapFencedJson t) = t ∧
    extractJsonFromResponse (wrapFenced t) = t := by
  have hmk : String.mk t.data = t := by cases t; rfl
  have hdata1 : (wrapFencedJson t).data
      = tick :: tick :: tick :: 'j' :: 's' :: 'o' :: 'n' :: '\n'
        :: (t.data ++ ['\n', tick, tick, tick]) := by
    unfold wrapFencedJson
    rw [String.data_append, String.data_append]
    simp only [List.append_assoc]
    rfl
  have hdata2 : (wrapFenced t).data
      = tick :: tick :: tick :: '\n' :: (t.data ++ ['\n', tick, tick, tick]) := by
    unfold wrapFenced
    rw [String.data_append, String.data_append]
    simp only [List.append_assoc]
    rfl
  have hcontent : takeContent (List.dropWhile isJsWs
      ('\n' :: (t.data ++ ['\n', tick, tick, tick]))) = some t.data := by
    rw [List.dropWhile_cons_of_pos (by decide)]
    cases ht : t.data with
    | nil => rfl
    | cons c cs =>
      have hc : isJsWs c = false := by
        unfold headNotWs at hhead
        rw [ht] at hhead
        simpa using hhead
      rw [List.cons_append, List.dropWhile_cons_of_neg (by rw [hc]; simp)]
      rw [← List.cons_append]
      exact takeContent_closes t.data h3 hlast (c :: cs) (by rw [ht])
  have hm1 : matchAfterTicks ('j' :: 's' :: 'o' :: 'n' :: '\n'
      :: (t.data ++ ['\n', tick, tick, tick])) = some t.data := hcontent
  have hm2 : matchAfterTicks ('\n' :: (t.data ++ ['\n', tick, tick, tick]))
      = some t.data := hcontent
  have hloop1 : extractLoop ((wrapFencedJson t).data) = some t.data := by
    rw [hdata1]
    show (match matchAfterTicks ('j' :: 's' :: 'o' :: 'n' :: '\n'
        :: (t.data ++ ['\n', tick, tick, tick])) with
      | some g => some g
      | none => extractLoop (tick :: tick :: 'j' :: 's' :: 'o' :: 'n' :: '\n'
          :: (t.data ++ ['\n', tick, tick, tick]))) = some t.data
    rw [hm1]
  have hloop2 : extractLoop ((wrapFenced t).data) = some t.data := by
    rw [hdata2]
    show (match matchAfterTicks ('\n' :: (t.data ++ ['\n', tick, tick, tick])) with
      | some g => some g
      | none => extractLoop (tick :: tick :: '\n'
          :: (t.data ++ ['\n', tick, tick, tick]))) = some t.data
    rw [hm2]
  constructor
  · unfold extractJsonFromResponse
    rw [hloop1]
  · unfold extractJsonFromResponse
    rw [hloop2]

/-- C9 amended: wrapped and bare parsing agree for payloads that contain no
``` fence themselves and carry no leading/trailing whitespace (surrounding
whitespace is stripped by the extraction). -/
theorem parseParameterResponse_fence_invariant (t : String)
    (h3 : hasTripleTick t.data = false)
    (hhead : headNotWs t.data = true) (hlast : lastNotWs t.data = true) :
    parseParameterResponse (wrapFencedJson t) = parseParameterResponse t ∧
    parseParameterResponse (wrapFenced t) = parseParameterResponse t := by
  obtain ⟨h1, h2⟩ := extractJson_wrapped t h3 hhead hlast
  have hb : extractJsonFromResponse t = t := extractJson_of_no_fence t h3
  constructor
  · unfold parseParameterResponse
    rw [h1, hb]
  · unfold parseParameterResponse
    rw [h2, hb]

theorem parseParameterResponse_fence_invariant_witness :
    hasTripleTick ("\x7b\"a\": 1\x7d" : String).data = false ∧
    headNotWs ("\x7b\"a\": 1\x7d" : String).data = true ∧
    lastNotWs ("\x7b\"a\": 1\x7d" : String).data = true ∧
    parseParameterResponse (wrapFencedJson "\x7b\"a\": 1\x7d")
      = parseParameterResponse "\x7b\"a\": 1\x7d" :=
  ⟨rfl, rfl, rfl, (parseParameterResponse_fence_invariant "\x7b\"a\": 1\x7d" rfl rfl rfl).1⟩

/-- C9 counterexample: a JSON payload that itself contains a ``` fence parses
differently wrapped and bare — the lazy group closes at the inner fence, so
the wrapped variant fails to parse while the bare one succeeds. -/
theorem parseParameterResponse_fence_counterexample :
    (parseParameterResponse "\x7b\"a\": \"x``` y\"\x7d").isOk = true ∧
    ¬(parseParameterResponse (wrapFencedJson "\x7b\"a\": \"x``` y\"\x7d")
      = parseParameterResponse "\x7b\"a\": \"x``` y\"\x7d") := by
  refine ⟨rfl, ?_⟩
  intro h
  have h2 := congrArg Except.isOk h
  rw [show (parseParameterResponse (wrapFencedJson "\x7b\"a\": \"x``` y\"\x7d")).isOk
      = false from rfl] at h2
  rw [show (parseParameterResponse "\x7b\"a\": \"x``` y\"\x7d").isOk = true from rfl] at h2
  exact Bool.noConfusion h2
